import Mathlib

/-!
# CHIP-8 interpreter core (`src/chip8.c`)

A shallow embedding of the interpreter state and of `chip8_init`,
`chip8_emulate_cycle` and `chip8_tick`.

* The process-wide globals of `chip8.c` are the fields of `Machine`.
* `uint8_t` / `uint16_t` values are natural numbers; every store reduces
  modulo `2^8` or `2^16` explicitly.
* Arrays are functions from the index; every access whose index is not a
  constant or a decoded nibble is bounds-checked against the array size of
  `chip8.h`, and an access outside the array is `Outcome.undefined`.
* `unknown_opcode(op)` (print and `exit(42)`) is `Outcome.unknown_opcode op`.
* `rand()` is a parameter of the cycle; the busy loop of `Fx0A` runs on fuel.
-/

namespace Chip8

/-! ## Constants of `chip8.h` -/

def CHIP8_MEMORY_SIZE : Nat := 4096
def CHIP8_REGISTER_COUNT : Nat := 16
def CHIP8_STACK_SIZE : Nat := 16
def CHIP8_KEY_SIZE : Nat := 16
def CHIP_SCREEN_WIDTH : Nat := 64
def CHIP_SCREEN_HEIGHT : Nat := 32
def CHIP8_PROGRAM_START_ADDRESS : Nat := 0x200
def MAX_GAME_SIZE : Nat := CHIP8_MEMORY_SIZE - CHIP8_PROGRAM_START_ADDRESS

def FONTSET_ADDRESS : Nat := 0x00
def FONTSET_BYTES_PER_CHAR : Nat := 5

/-- The glyph table `chip8_fontset[80]`. -/
def chip8_fontset : List Nat :=
  [0xF0, 0x90, 0x90, 0x90, 0xF0,
   0x20, 0x60, 0x20, 0x20, 0x70,
   0xF0, 0x10, 0xF0, 0x80, 0xF0,
   0xF0, 0x10, 0xF0, 0x10, 0xF0,
   0x90, 0x90, 0xF0, 0x10, 0x10,
   0xF0, 0x80, 0xF0, 0x10, 0xF0,
   0xF0, 0x80, 0xF0, 0x90, 0xF0,
   0xF0, 0x10, 0x20, 0x40, 0x40,
   0xF0, 0x90, 0xF0, 0x90, 0xF0,
   0xF0, 0x90, 0xF0, 0x10, 0xF0,
   0xF0, 0x90, 0xF0, 0x90, 0x90,
   0xE0, 0x90, 0xE0, 0x90, 0xE0,
   0xF0, 0x80, 0x80, 0x80, 0xF0,
   0xE0, 0x90, 0x90, 0x90, 0xE0,
   0xF0, 0x80, 0xF0, 0x80, 0xF0,
   0xF0, 0x80, 0xF0, 0x80, 0x80]

/-! ## Machine state: the globals of `chip8.c` -/

/-- The globals `opcode`, `memory`, `V`, `I`, `PC`, `frame_buffer`,
`delay_timer`, `sound_timer`, `stack`, `SP`, `keypad`, `draw_flag`. -/
structure Machine where
  opcode : Nat
  memory : Nat → Nat
  V : Nat → Nat
  I : Nat
  PC : Nat
  frame_buffer : Nat → Nat → Nat
  delay_timer : Nat
  sound_timer : Nat
  stack : Nat → Nat
  SP : Nat
  keypad : Nat → Nat
  draw_flag : Bool

/-- What one call of `chip8_emulate_cycle` does: it returns with a new state,
it leaves through `unknown_opcode` (message with the opcode, `exit(42)`), it
indexes an array outside its bounds, or it is still inside the `while (true)`
of `Fx0A` when the fuel is spent. -/
inductive Outcome where
  | ok (s : Machine)
  | unknown_opcode (op : Nat)
  | undefined
  | spinning

/-- Assignment `V[i] = v`. -/
def setV (s : Machine) (i v : Nat) : Machine :=
  { s with V := Function.update s.V i v }

/-- Assignment `memory[a] = v`. -/
def setMem (s : Machine) (a v : Nat) : Machine :=
  { s with memory := Function.update s.memory a v }

/-- Statement `PC += k` on the `uint16_t` program counter. -/
def advance (s : Machine) (k : Nat) : Machine :=
  { s with PC := (s.PC + k) % 65536 }

/-! ## `chip8_init` and `chip8_tick` -/

/-- The copy loop `for (i = 0; i < sizeof(chip8_fontset); i++)
memory[FONTSET_ADDRESS + i] = chip8_fontset[i];`, `cnt` iterations from `i`. -/
def load_fontset (mem : Nat → Nat) (i : Nat) : Nat → Nat → Nat
  | 0 => mem
  | cnt + 1 =>
      load_fontset (Function.update mem (FONTSET_ADDRESS + i) (chip8_fontset.getD i 0))
        (i + 1) cnt

/-- Function `chip8_init`: every global is overwritten. -/
def chip8_init (_prior : Machine) : Machine :=
  { opcode := 0
    memory := load_fontset (fun _ => 0) 0 chip8_fontset.length
    V := fun _ => 0
    I := 0
    PC := CHIP8_PROGRAM_START_ADDRESS
    frame_buffer := fun _ _ => 0
    delay_timer := 0
    sound_timer := 0
    stack := fun _ => 0
    SP := 0
    keypad := fun _ => 0
    draw_flag := true }

/-- Function `chip8_loadgame` when the file opens:
`fread(&memory[0x200], 1, MAX_GAME_SIZE, fgame)` copies at most
`MAX_GAME_SIZE` bytes of the file `game` to `memory[0x200 ...]`. -/
def chip8_loadgame (game : List Nat) (s : Machine) : Machine :=
  { s with memory := fun a =>
      if 0x200 ≤ a ∧ a - 0x200 < min game.length MAX_GAME_SIZE then game.getD (a - 0x200) 0
      else s.memory a }

/-- Function `chip8_tick`. -/
def chip8_tick (s : Machine) : Machine :=
  let s1 := if s.delay_timer > 0 then { s with delay_timer := s.delay_timer - 1 } else s
  if s1.sound_timer > 0 then { s1 with sound_timer := s1.sound_timer - 1 } else s1

/-! ## `chip8_emulate_cycle` -/

/-- The fetch `opcode = memory[PC] << 8 | memory[PC + 1]`; `none` when
`PC + 1` is not an index of `memory`. -/
def fetch (s : Machine) : Option Nat :=
  if s.PC + 1 < CHIP8_MEMORY_SIZE then
    some ((s.memory s.PC <<< 8 ||| s.memory (s.PC + 1)) % 65536)
  else none

/-- The inner `for (i = 0; i < CHIP8_KEY_SIZE; i++) if (keypad[i] == 1)` of
`Fx0A`: the first index whose latch equals 1. -/
def scan_keypad (keypad : Nat → Nat) : Option Nat :=
  (List.range CHIP8_KEY_SIZE).find? (fun i => keypad i == 1)

/-- The `while (true)` of `Fx0A`: one scan, and `fuel` further scans while
no latch is set. Nothing inside the loop writes `keypad`. -/
def wait_key (keypad : Nat → Nat) : Nat → Option Nat
  | 0 => scan_keypad keypad
  | fuel + 1 =>
      match scan_keypad keypad with
      | some k => some k
      | none => wait_key keypad fuel

/-- The loop `for (i = 0; i <= x; i++) memory[I + i] = V[i];` of `Fx55`,
`cnt` iterations from `i`; `none` on an index outside `memory`. -/
def store_registers (V : Nat → Nat) (I : Nat) (mem : Nat → Nat) (i : Nat) :
    Nat → Option (Nat → Nat)
  | 0 => some mem
  | cnt + 1 =>
      if I + i < CHIP8_MEMORY_SIZE then
        store_registers V I (Function.update mem (I + i) (V i)) (i + 1) cnt
      else none

/-- The loop `for (i = 0; i <= x; i++) V[i] = memory[I + i];` of `Fx65`,
`cnt` iterations from `i`; `none` on an index outside `memory`. -/
def load_registers (mem : Nat → Nat) (I : Nat) (V : Nat → Nat) (i : Nat) :
    Nat → Option (Nat → Nat)
  | 0 => some V
  | cnt + 1 =>
      if I + i < CHIP8_MEMORY_SIZE then
        load_registers mem I (Function.update V i (mem (I + i))) (i + 1) cnt
      else none

/-- Family `0x0000`: `switch (kk)`. -/
def exec_0 (s : Machine) (kk : Nat) : Outcome :=
  if kk = 0xE0 then
    Outcome.ok (advance { s with frame_buffer := fun _ _ => 0, draw_flag := true } 2)
  else if kk = 0xEE then
    -- PC = stack[--SP];
    let sp := (s.SP + 65535) % 65536
    if sp < CHIP8_STACK_SIZE then
      Outcome.ok { s with SP := sp, PC := s.stack sp }
    else Outcome.undefined
  else Outcome.unknown_opcode s.opcode

/-- Family `0x8000`: `switch (n)`. -/
def exec_8 (s : Machine) (x y n : Nat) : Outcome :=
  if n = 0x0 then
    Outcome.ok (advance (setV s x (s.V y)) 2)
  else if n = 0x1 then
    Outcome.ok (advance (setV s x ((s.V x ||| s.V y) % 256)) 2)
  else if n = 0x2 then
    Outcome.ok (advance (setV s x ((s.V x &&& s.V y) % 256)) 2)
  else if n = 0x3 then
    Outcome.ok (advance (setV s x ((s.V x ^^^ s.V y) % 256)) 2)
  else if n = 0x4 then
    let s1 := setV s 0xF (if (s.V y : Int) > 0xFF - (s.V x : Int) then 1 else 0)
    let s2 := setV s1 x ((s1.V x + s1.V y) % 256)
    Outcome.ok (advance s2 2)
  else if n = 0x5 then
    let s1 := setV s 0xF (if s.V x > s.V y then 1 else 0)
    let s2 := setV s1 x (((s1.V x : Int) - (s1.V y : Int)) % 256).toNat
    Outcome.ok (advance s2 2)
  else if n = 0x6 then
    let s1 := setV s 0xF (s.V x &&& 0x1)
    let s2 := setV s1 x ((s1.V x >>> 1) % 256)
    Outcome.ok (advance s2 2)
  else if n = 0x7 then
    let s1 := setV s 0xF (if s.V y > s.V x then 1 else 0)
    let s2 := setV s1 x (((s1.V y : Int) - (s1.V x : Int)) % 256).toNat
    Outcome.ok (advance s2 2)
  else if n = 0xE then
    let s1 := setV s 0xF (s.V x &&& 0x01)
    let s2 := setV s1 x ((s1.V x <<< 1) % 256)
    Outcome.ok (advance s2 2)
  else Outcome.unknown_opcode s.opcode

/-- Family `0xE000`: `switch (kk)`, which has no `default`. -/
def exec_E (s : Machine) (x kk : Nat) : Outcome :=
  if kk = 0x9E then
    if s.V x < CHIP8_KEY_SIZE then
      if s.keypad (s.V x) = 1 then Outcome.ok (advance s 2) else Outcome.ok s
    else Outcome.undefined
  else if kk = 0xA1 then
    if s.V x < CHIP8_KEY_SIZE then
      if s.keypad (s.V x) = 0 then Outcome.ok (advance s 2) else Outcome.ok s
    else Outcome.undefined
  else Outcome.ok s

/-- Family `0xF000`: `switch (kk)`. -/
def exec_F (fuel : Nat) (s : Machine) (x kk : Nat) : Outcome :=
  if kk = 0x07 then
    Outcome.ok (advance (setV s x s.delay_timer) 2)
  else if kk = 0x0A then
    match wait_key s.keypad fuel with
    | some i => Outcome.ok (advance (setV s x i) 2)
    | none => Outcome.spinning
  else if kk = 0x15 then
    Outcome.ok (advance { s with delay_timer := s.V x } 2)
  else if kk = 0x18 then
    Outcome.ok (advance { s with sound_timer := s.V x } 2)
  else if kk = 0x1E then
    Outcome.ok (advance { s with I := (s.I + s.V x) % 65536 } 2)
  else if kk = 0x29 then
    Outcome.ok (advance { s with I := (s.V x * FONTSET_BYTES_PER_CHAR) % 65536 } 2)
  else if kk = 0x33 then
    if s.I + 2 < CHIP8_MEMORY_SIZE then
      let s1 := setMem s s.I ((s.V x / 100) % 256)
      let s2 := setMem s1 (s1.I + 1) ((s1.V x / 10) % 10)
      let s3 := setMem s2 (s2.I + 2) (s2.V x % 10)
      Outcome.ok (advance s3 2)
    else Outcome.undefined
  else if kk = 0x55 then
    match store_registers s.V s.I s.memory 0 (x + 1) with
    | some mem => Outcome.ok (advance { s with memory := mem, I := (s.I + (x + 1)) % 65536 } 2)
    | none => Outcome.undefined
  else if kk = 0x65 then
    match load_registers s.memory s.I s.V 0 (x + 1) with
    | some V => Outcome.ok (advance { s with V := V, I := (s.I + (x + 1)) % 65536 } 2)
    | none => Outcome.undefined
  else Outcome.unknown_opcode s.opcode

/-- The outer `switch (opcode & 0xF000)` with the fields `x`, `y`, `n`,
`nnn`, `kk` decoded from the global `opcode`; `rnd` is what `rand()` returns. -/
def execute (fuel rnd : Nat) (s : Machine) : Outcome :=
  let x := ((s.opcode &&& 0x0F00) >>> 8) % 256
  let y := ((s.opcode &&& 0x00F0) >>> 4) % 256
  let n := (s.opcode &&& 0x000F) % 256
  let nnn := (s.opcode &&& 0x0FFF) % 65536
  let kk := (s.opcode &&& 0x00FF) % 256
  let family := s.opcode &&& 0xF000
  if family = 0x0000 then exec_0 s kk
  else if family = 0x1000 then Outcome.ok { s with PC := nnn }
  else if family = 0x2000 then
    -- stack[SP++] = PC + 2;
    if s.SP < CHIP8_STACK_SIZE then
      Outcome.ok { s with stack := Function.update s.stack s.SP ((s.PC + 2) % 65536),
                          SP := (s.SP + 1) % 65536,
                          PC := nnn }
    else Outcome.undefined
  else if family = 0x3000 then
    if s.V x = kk then Outcome.ok (advance s 2) else Outcome.ok (advance s 4)
  else if family = 0x4000 then
    if s.V x ≠ kk then Outcome.ok (advance s 2) else Outcome.ok (advance s 4)
  else if family = 0x5000 then
    if s.V x = s.V y then Outcome.ok (advance s 2) else Outcome.ok (advance s 4)
  else if family = 0x6000 then Outcome.ok (advance (setV s x kk) 2)
  else if family = 0x7000 then Outcome.ok (advance (setV s x ((s.V x + kk) % 256)) 2)
  else if family = 0x8000 then exec_8 s x y n
  else if family = 0x9000 then
    if s.V x ≠ s.V y then Outcome.ok (advance s 2) else Outcome.ok s
  else if family = 0xA000 then Outcome.ok (advance { s with I := nnn } 2)
  else if family = 0xB000 then Outcome.ok { s with PC := (nnn + s.V 0) % 65536 }
  else if family = 0xC000 then
    Outcome.ok (advance (setV s x (((rnd % 0xFF) &&& kk) % 256)) 2)
  else if family = 0xD000 then
    -- the call of draw_sprite is compiled out (#if 0)
    Outcome.ok { advance s 2 with draw_flag := true }
  else if family = 0xE000 then exec_E s x kk
  else if family = 0xF000 then exec_F fuel s x kk
  else Outcome.unknown_opcode s.opcode

/-- Function `chip8_emulate_cycle`: fetch into the global `opcode`, decode,
dispatch. -/
def chip8_emulate_cycle (fuel rnd : Nat) (s : Machine) : Outcome :=
  match fetch s with
  | some op => execute fuel rnd { s with opcode := op }
  | none => Outcome.undefined

/-! ## Runs of a session -/

/-- The states a session over the program image `game` passes through:
`chip8_init`, `chip8_loadgame`, then calls of `chip8_emulate_cycle` that
return and calls of `chip8_tick`, in any order. -/
inductive Reachable (game : List Nat) : Machine → Prop where
  | start (prior : Machine) : Reachable game (chip8_loadgame game (chip8_init prior))
  | cycle (fuel rnd : Nat) (s t : Machine) :
      Reachable game s → chip8_emulate_cycle fuel rnd s = Outcome.ok t → Reachable game t
  | tick (s : Machine) : Reachable game s → Reachable game (chip8_tick s)

/-! ## Concrete machine states -/

/-- A state with the four program bytes `b0 b1 b2 b3` at `0x200 ... 0x203`
(the initial `PC`), the data bytes `d0 d1` at `0x300` and `0x301`, `I = 0x300`
and the registers `V`; everything else as after `chip8_init`. -/
def program_at (b0 b1 b2 b3 d0 d1 : Nat) (V : Nat → Nat) : Machine :=
  { opcode := 0
    memory := fun a =>
      if a = 0x200 then b0 else if a = 0x201 then b1
      else if a = 0x202 then b2 else if a = 0x203 then b3
      else if a = 0x300 then d0 else if a = 0x301 then d1 else 0
    V := V
    I := 0x300
    PC := CHIP8_PROGRAM_START_ADDRESS
    frame_buffer := fun _ _ => 0
    delay_timer := 0
    sound_timer := 0
    stack := fun _ => 0
    SP := 0
    keypad := fun _ => 0
    draw_flag := true }

/-- The state after `chip8_init` of a session whose program image starts with
the two bytes `hi`, `lo` (at `0x200`, the initial `PC`), with the registers
`V`, the index register `I` and the keypad latches `keypad` set as given. -/
def state_at (hi lo : Nat) (V : Nat → Nat) (I : Nat) (keypad : Nat → Nat) : Machine :=
  { opcode := 0
    memory := fun a => if a = 0x200 then hi else if a = 0x201 then lo else 0
    V := V
    I := I
    PC := CHIP8_PROGRAM_START_ADDRESS
    frame_buffer := fun _ _ => 0
    delay_timer := 0
    sound_timer := 0
    stack := fun _ => 0
    SP := 0
    keypad := keypad
    draw_flag := true }

/-- A state about to run `2300` (call `0x300`) at `PC = 0x200` with an empty
stack; the callee at `0x300` starts with `00EE`. -/
def call_site : Machine :=
  { state_at 0x23 0x00 (fun _ => 0) 0 (fun _ => 0) with
    memory := fun a => if a = 0x200 then 0x23 else if a = 0x301 then 0xEE else 0 }

/-- A state inside the callee of `call_site`: `PC = 0x300` at the `00EE`,
one return address `0x202` on the stack. -/
def callee_site : Machine :=
  { call_site with PC := 0x300, SP := 1, stack := fun i => if i = 0 then 0x202 else 0 }

/-- Registers `V[i] = a`, `V[j] = b`, all others 0. -/
def regs2 (i a j b : Nat) : Nat → Nat :=
  fun r => if r = i then a else if r = j then b else 0

/-- No keypad latch set. -/
def no_keys : Nat → Nat := fun _ => 0

/-- Only the latch of key `k` set. -/
def key_down (k : Nat) : Nat → Nat := fun i => if i = k then 1 else 0

/-! ## Instruction fields as arithmetic -/

theorem shiftRight_and (a b i : Nat) : (a &&& b) >>> i = (a >>> i) &&& (b >>> i) :=
  Nat.eq_of_testBit_eq (by intro j; simp)

theorem and_F000 (op : Nat) : op &&& 0xF000 = (op / 4096 % 16) * 4096 := by
  have h1 : (op &&& 0xF000) >>> 12 = op / 4096 % 16 := by
    rw [shiftRight_and, Nat.shiftRight_eq_div_pow]
    exact Nat.and_pow_two_sub_one_eq_mod _ 4
  have h2 : (op &&& 0xF000) % 4096 = 0 := by
    rw [← Nat.and_pow_two_sub_one_eq_mod _ 12, Nat.and_assoc]
    have : (0xF000 : Nat) &&& (2 ^ 12 - 1) = 0 := by decide
    rw [this]; simp
  rw [Nat.shiftRight_eq_div_pow] at h1
  omega

theorem and_0F00 (op : Nat) : (op &&& 0x0F00) >>> 8 = op / 256 % 16 := by
  rw [shiftRight_and, Nat.shiftRight_eq_div_pow]
  exact Nat.and_pow_two_sub_one_eq_mod _ 4

theorem and_00F0 (op : Nat) : (op &&& 0x00F0) >>> 4 = op / 16 % 16 := by
  rw [shiftRight_and, Nat.shiftRight_eq_div_pow]
  exact Nat.and_pow_two_sub_one_eq_mod _ 4

theorem and_000F (op : Nat) : op &&& 0x000F = op % 16 :=
  Nat.and_pow_two_sub_one_eq_mod _ 4

theorem and_00FF (op : Nat) : op &&& 0x00FF = op % 256 :=
  Nat.and_pow_two_sub_one_eq_mod _ 8

theorem and_0FFF (op : Nat) : op &&& 0x0FFF = op % 4096 :=
  Nat.and_pow_two_sub_one_eq_mod _ 12

/-- The dispatch of `execute` with the fields written as quotients and
remainders of the instruction word. -/
theorem execute_fields (fuel rnd : Nat) (s : Machine) :
    execute fuel rnd s =
      (let x := s.opcode / 256 % 16
       let y := s.opcode / 16 % 16
       let n := s.opcode % 16
       let nnn := s.opcode % 4096
       let kk := s.opcode % 256
       let family := s.opcode / 4096 % 16
       if family = 0x0 then exec_0 s kk
       else if family = 0x1 then Outcome.ok { s with PC := nnn }
       else if family = 0x2 then
         if s.SP < CHIP8_STACK_SIZE then
           Outcome.ok { s with stack := Function.update s.stack s.SP ((s.PC + 2) % 65536),
                               SP := (s.SP + 1) % 65536,
                               PC := nnn }
         else Outcome.undefined
       else if family = 0x3 then
         if s.V x = kk then Outcome.ok (advance s 2) else Outcome.ok (advance s 4)
       else if family = 0x4 then
         if s.V x ≠ kk then Outcome.ok (advance s 2) else Outcome.ok (advance s 4)
       else if family = 0x5 then
         if s.V x = s.V y then Outcome.ok (advance s 2) else Outcome.ok (advance s 4)
       else if family = 0x6 then Outcome.ok (advance (setV s x kk) 2)
       else if family = 0x7 then Outcome.ok (advance (setV s x ((s.V x + kk) % 256)) 2)
       else if family = 0x8 then exec_8 s x y n
       else if family = 0x9 then
         if s.V x ≠ s.V y then Outcome.ok (advance s 2) else Outcome.ok s
       else if family = 0xA then Outcome.ok (advance { s with I := nnn } 2)
       else if family = 0xB then Outcome.ok { s with PC := (nnn + s.V 0) % 65536 }
       else if family = 0xC then
         Outcome.ok (advance (setV s x (((rnd % 0xFF) &&& kk) % 256)) 2)
       else if family = 0xD then
         Outcome.ok { advance s 2 with draw_flag := true }
       else if family = 0xE then exec_E s x kk
       else exec_F fuel s x kk) := by
  have hx : s.opcode / 256 % 16 % 256 = s.opcode / 256 % 16 := by omega
  have hy : s.opcode / 16 % 16 % 256 = s.opcode / 16 % 16 := by omega
  have hn : s.opcode % 16 % 256 = s.opcode % 16 := by omega
  have hnnn : s.opcode % 4096 % 65536 = s.opcode % 4096 := by omega
  have hkk : s.opcode % 256 % 256 = s.opcode % 256 := by omega
  unfold execute
  simp only [and_F000, and_0F00, and_00F0, and_000F, and_00FF, and_0FFF, hx, hy, hn, hnnn, hkk]
  have hlt : s.opcode / 4096 % 16 < 16 := Nat.mod_lt _ (by decide)
  generalize s.opcode / 4096 % 16 = f at hlt ⊢
  interval_cases f <;> simp

theorem cycle_of_fetch (fuel rnd : Nat) (s : Machine) (op : Nat) (h : fetch s = some op) :
    chip8_emulate_cycle fuel rnd s = execute fuel rnd { s with opcode := op } := by
  simp [chip8_emulate_cycle, h]

/-- A cycle on a word of family 8 is the `switch (n)` of that family. -/
theorem cycle_family_8 (fuel rnd : Nat) (s : Machine) (op : Nat)
    (h : fetch s = some op) (hfam : op / 4096 % 16 = 8) :
    chip8_emulate_cycle fuel rnd s =
      exec_8 { s with opcode := op } (op / 256 % 16) (op / 16 % 16) (op % 16) := by
  rw [cycle_of_fetch fuel rnd s _ h, execute_fields]
  simp [hfam]

/-! ## Claims -/

/-- C1, at the failing input `81F4` with `V[1] = 1`, `V[0xF] = 5`: the flag is
stored in `V[0xF]` before the sum reads `V[y] = V[0xF]`, so the cycle leaves
`V[1] = 1 + 0 = 1`, not `(1 + 5) mod 256 = 6`. -/
theorem C1_add_registers_reads_overwritten_flag :
    fetch (state_at 0x81 0xF4 (regs2 1 1 0xF 5) 0 no_keys) = some 0x81F4 ∧
    ∀ fuel rnd, ∃ s',
      chip8_emulate_cycle fuel rnd (state_at 0x81 0xF4 (regs2 1 1 0xF 5) 0 no_keys)
        = Outcome.ok s' ∧
      s'.V 1 = 1 ∧ s'.V 1 ≠ (1 + 5) % 256 ∧ s'.V 0xF = 0 := by
  refine ⟨by decide, fun fuel rnd => ?_⟩
  refine ⟨_, rfl, ?_, ?_, ?_⟩ <;> decide

/-- C4: on a word `8xy6` with `x ≠ 0xF` the cycle returns, `V[0xF]` is bit 0
of the old `V[x]` and `V[x]` is the old `V[x]` shifted right by one. -/
theorem C4_shift_right (fuel rnd : Nat) (s : Machine) (x y : Nat)
    (hx : x < 0xF) (hy : y < 16) (hv : s.V x < 256)
    (h : fetch s = some (0x8006 + 0x100 * x + 0x10 * y)) :
    ∃ s', chip8_emulate_cycle fuel rnd s = Outcome.ok s' ∧
      s'.V 0xF = s.V x % 2 ∧ s'.V x = s.V x >>> 1 := by
  have hne : x ≠ 15 := by omega
  have hne2 : (15 : Nat) ≠ x := by omega
  have h1 : (0x8006 + 0x100 * x + 0x10 * y) / 4096 % 16 = 8 := by omega
  have h2 : (0x8006 + 0x100 * x + 0x10 * y) / 256 % 16 = x := by omega
  have h3 : (0x8006 + 0x100 * x + 0x10 * y) / 16 % 16 = y := by omega
  have h4 : (0x8006 + 0x100 * x + 0x10 * y) % 16 = 6 := by omega
  rw [cycle_family_8 fuel rnd s _ h h1, h2, h3, h4]
  refine ⟨_, rfl, ?_, ?_⟩
  · simp [setV, advance, Function.update, hne2, and_000F]
  · simp [setV, advance, Function.update, hne]
    have := Nat.shiftRight_eq_div_pow (s.V x) 1
    omega

/-- C4 at the spec's example: `8126` with `V[1] = 0x03` leaves `V[1] = 0x01`
and `V[0xF] = 1`. -/
theorem C4_shift_right_witness :
    (1 < 0xF ∧ 2 < 16 ∧ (state_at 0x81 0x26 (regs2 1 0x03 2 0) 0 no_keys).V 1 < 256 ∧
      fetch (state_at 0x81 0x26 (regs2 1 0x03 2 0) 0 no_keys)
        = some (0x8006 + 0x100 * 1 + 0x10 * 2)) ∧
    ∃ s', chip8_emulate_cycle 0 0 (state_at 0x81 0x26 (regs2 1 0x03 2 0) 0 no_keys)
        = Outcome.ok s' ∧
      s'.V 0xF = (state_at 0x81 0x26 (regs2 1 0x03 2 0) 0 no_keys).V 1 % 2 ∧
      s'.V 1 = (state_at 0x81 0x26 (regs2 1 0x03 2 0) 0 no_keys).V 1 >>> 1 :=
  ⟨by decide,
   C4_shift_right 0 0 (state_at 0x81 0x26 (regs2 1 0x03 2 0) 0 no_keys) 1 2
     (by decide) (by decide) (by decide) (by decide)⟩

/-- C2, at the failing input `8125` with `V[1] = V[2] = 7`: the flag test is
the strict `V[x] > V[y]`, so the cycle leaves `V[0xF] = 0` (and `V[1] = 0`)
where no borrow occurred. The same strict test is in `8xy7`: `8127` on the
same registers also leaves `V[0xF] = 0`. -/
theorem C2_subtract_flag_zero_on_equal :
    fetch (state_at 0x81 0x25 (regs2 1 7 2 7) 0 no_keys) = some 0x8125 ∧
    fetch (state_at 0x81 0x27 (regs2 1 7 2 7) 0 no_keys) = some 0x8127 ∧
    ∀ fuel rnd,
      (∃ s', chip8_emulate_cycle fuel rnd (state_at 0x81 0x25 (regs2 1 7 2 7) 0 no_keys)
          = Outcome.ok s' ∧ s'.V 1 = 0 ∧ s'.V 0xF = 0 ∧ s'.V 0xF ≠ 1) ∧
      (∃ s', chip8_emulate_cycle fuel rnd (state_at 0x81 0x27 (regs2 1 7 2 7) 0 no_keys)
          = Outcome.ok s' ∧ s'.V 1 = 0 ∧ s'.V 0xF = 0 ∧ s'.V 0xF ≠ 1) := by
  refine ⟨by decide, by decide, fun fuel rnd => ⟨?_, ?_⟩⟩
  · refine ⟨_, rfl, ?_, ?_, ?_⟩ <;> decide
  · refine ⟨_, rfl, ?_, ?_, ?_⟩ <;> decide

/-- C3, at the failing input `812E` with `V[1] = 0x80`: the flag is
`V[x] & 0x01`, bit 0 and not bit 7, so the cycle leaves `V[0xF] = 0` where
bit 7 of `0x80` is 1; `V[1]` becomes `(0x80 << 1) mod 256 = 0`. -/
theorem C3_shift_left_flag_is_bit_0 :
    fetch (state_at 0x81 0x2E (regs2 1 0x80 2 0) 0 no_keys) = some 0x812E ∧
    (0x80 / 128) % 2 = 1 ∧
    ∀ fuel rnd, ∃ s',
      chip8_emulate_cycle fuel rnd (state_at 0x81 0x2E (regs2 1 0x80 2 0) 0 no_keys)
        = Outcome.ok s' ∧
      s'.V 0xF = 0 ∧ s'.V 0xF = 0x80 % 2 ∧ s'.V 1 = 0 := by
  refine ⟨by decide, by decide, fun fuel rnd => ?_⟩
  refine ⟨_, rfl, ?_, ?_, ?_⟩ <;> decide

/-- C5, at failing inputs: `3105` with `V[1] = 5` (equal) moves `PC` from
`0x200` to `0x202`, and with `V[1] = 6` (different) to `0x204`; `4105` with
`V[1] = 6` (different) moves it to `0x202`, and with `V[1] = 5` to `0x204`.
Both tests are the reverse of "skip when the condition holds". -/
theorem C5_skip_immediate_reversed :
    fetch (state_at 0x31 0x05 (regs2 1 5 2 0) 0 no_keys) = some 0x3105 ∧
    fetch (state_at 0x41 0x05 (regs2 1 6 2 0) 0 no_keys) = some 0x4105 ∧
    ∀ fuel rnd,
      (∃ s', chip8_emulate_cycle fuel rnd (state_at 0x31 0x05 (regs2 1 5 2 0) 0 no_keys)
          = Outcome.ok s' ∧ s'.PC = 0x200 + 2) ∧
      (∃ s', chip8_emulate_cycle fuel rnd (state_at 0x31 0x05 (regs2 1 6 2 0) 0 no_keys)
          = Outcome.ok s' ∧ s'.PC = 0x200 + 4) ∧
      (∃ s', chip8_emulate_cycle fuel rnd (state_at 0x41 0x05 (regs2 1 6 2 0) 0 no_keys)
          = Outcome.ok s' ∧ s'.PC = 0x200 + 2) ∧
      (∃ s', chip8_emulate_cycle fuel rnd (state_at 0x41 0x05 (regs2 1 5 2 0) 0 no_keys)
          = Outcome.ok s' ∧ s'.PC = 0x200 + 4) := by
  refine ⟨by decide, by decide, fun fuel rnd => ⟨?_, ?_, ?_, ?_⟩⟩ <;>
    exact ⟨_, rfl, by decide⟩

/-- C6, at failing inputs: `5120` with `V[1] = V[2] = 7` moves `PC` from
`0x200` to `0x202` and with `V[1] = 7`, `V[2] = 8` to `0x204` (reversed);
`9120` with `V[1] = V[2] = 7` leaves `PC = 0x200` unchanged, and with
`V[1] = 7`, `V[2] = 8` moves it to `0x202` only. -/
theorem C6_skip_registers_wrong_advance :
    fetch (state_at 0x51 0x20 (regs2 1 7 2 7) 0 no_keys) = some 0x5120 ∧
    fetch (state_at 0x91 0x20 (regs2 1 7 2 7) 0 no_keys) = some 0x9120 ∧
    ∀ fuel rnd,
      (∃ s', chip8_emulate_cycle fuel rnd (state_at 0x51 0x20 (regs2 1 7 2 7) 0 no_keys)
          = Outcome.ok s' ∧ s'.PC = 0x200 + 2) ∧
      (∃ s', chip8_emulate_cycle fuel rnd (state_at 0x51 0x20 (regs2 1 7 2 8) 0 no_keys)
          = Outcome.ok s' ∧ s'.PC = 0x200 + 4) ∧
      (∃ s', chip8_emulate_cycle fuel rnd (state_at 0x91 0x20 (regs2 1 7 2 7) 0 no_keys)
          = Outcome.ok s' ∧ s'.PC = 0x200) ∧
      (∃ s', chip8_emulate_cycle fuel rnd (state_at 0x91 0x20 (regs2 1 7 2 8) 0 no_keys)
          = Outcome.ok s' ∧ s'.PC = 0x200 + 2) := by
  refine ⟨by decide, by decide, fun fuel rnd => ⟨?_, ?_, ?_, ?_⟩⟩ <;>
    exact ⟨_, rfl, by decide⟩

/-- C7, at failing inputs with `V[1] = 3`: `E19E` moves `PC` from `0x200` to
`0x202` when `keypad[3]` is set and leaves it at `0x200` when it is clear;
`E1A1` moves it to `0x202` when `keypad[3]` is clear and leaves it at `0x200`
when it is set. -/
theorem C7_skip_key_advances_by_two_or_zero :
    fetch (state_at 0xE1 0x9E (regs2 1 3 2 0) 0 (key_down 3)) = some 0xE19E ∧
    fetch (state_at 0xE1 0xA1 (regs2 1 3 2 0) 0 no_keys) = some 0xE1A1 ∧
    ∀ fuel rnd,
      (∃ s', chip8_emulate_cycle fuel rnd (state_at 0xE1 0x9E (regs2 1 3 2 0) 0 (key_down 3))
          = Outcome.ok s' ∧ s'.PC = 0x200 + 2) ∧
      (∃ s', chip8_emulate_cycle fuel rnd (state_at 0xE1 0x9E (regs2 1 3 2 0) 0 no_keys)
          = Outcome.ok s' ∧ s'.PC = 0x200) ∧
      (∃ s', chip8_emulate_cycle fuel rnd (state_at 0xE1 0xA1 (regs2 1 3 2 0) 0 no_keys)
          = Outcome.ok s' ∧ s'.PC = 0x200 + 2) ∧
      (∃ s', chip8_emulate_cycle fuel rnd (state_at 0xE1 0xA1 (regs2 1 3 2 0) 0 (key_down 3))
          = Outcome.ok s' ∧ s'.PC = 0x200) := by
  refine ⟨by decide, by decide, fun fuel rnd => ⟨?_, ?_, ?_, ?_⟩⟩ <;>
    exact ⟨_, rfl, by decide⟩

/-- When the `switch (kk)` of family 0 reaches its `default`. -/
theorem exec_0_unknown (s : Machine) (kk w : Nat) :
    exec_0 s kk = Outcome.unknown_opcode w ↔ (kk ≠ 0xE0 ∧ kk ≠ 0xEE) ∧ w = s.opcode := by
  by_cases h1 : kk = 0xE0
  · subst h1; simp [exec_0]
  by_cases h2 : kk = 0xEE
  · subst h2; simp [exec_0]; split_ifs <;> simp
  simp [exec_0, h1, h2, eq_comm]

/-- When the `switch (n)` of family 8 reaches its `default`. -/
theorem exec_8_unknown (s : Machine) (x y n w : Nat) (hn : n < 16) :
    exec_8 s x y n = Outcome.unknown_opcode w ↔
      (8 ≤ n ∧ n ≤ 0xD ∨ n = 0xF) ∧ w = s.opcode := by
  unfold exec_8
  interval_cases n <;> simp [eq_comm]

/-- When the `switch (kk)` of family F reaches its `default`. -/
theorem exec_F_unknown (fuel : Nat) (s : Machine) (x kk w : Nat) :
    exec_F fuel s x kk = Outcome.unknown_opcode w ↔
      kk ∉ [0x07, 0x0A, 0x15, 0x18, 0x1E, 0x29, 0x33, 0x55, 0x65] ∧ w = s.opcode := by
  by_cases h1 : kk = 0x07
  · subst h1; simp [exec_F]
  by_cases h2 : kk = 0x0A
  · subst h2; simp [exec_F]; cases wait_key s.keypad fuel <;> simp
  by_cases h3 : kk = 0x15
  · subst h3; simp [exec_F]
  by_cases h4 : kk = 0x18
  · subst h4; simp [exec_F]
  by_cases h5 : kk = 0x1E
  · subst h5; simp [exec_F]
  by_cases h6 : kk = 0x29
  · subst h6; simp [exec_F]
  by_cases h7 : kk = 0x33
  · subst h7; simp [exec_F]; split_ifs <;> simp
  by_cases h8 : kk = 0x55
  · subst h8; simp [exec_F]; cases store_registers s.V s.I s.memory 0 (x + 1) <;> simp
  by_cases h9 : kk = 0x65
  · subst h9; simp [exec_F]; cases load_registers s.memory s.I s.V 0 (x + 1) <;> simp
  simp [exec_F, h1, h2, h3, h4, h5, h6, h7, h8, h9, eq_comm]

/-- C8 as stated fails at `5121` (a word `5xyN` with `N = 1`): the low nibble
is not decoded, the cycle returns as for `5120` and reports no fault. -/
theorem C8_counterexample_5xyN_executes :
    fetch (state_at 0x51 0x21 (regs2 1 7 2 7) 0 no_keys) = some 0x5121 ∧
    ∀ fuel rnd,
      (∃ s', chip8_emulate_cycle fuel rnd (state_at 0x51 0x21 (regs2 1 7 2 7) 0 no_keys)
          = Outcome.ok s') ∧
      chip8_emulate_cycle fuel rnd (state_at 0x51 0x21 (regs2 1 7 2 7) 0 no_keys)
        ≠ Outcome.unknown_opcode 0x5121 := by
  refine ⟨by decide, fun fuel rnd => ⟨⟨_, rfl⟩, ?_⟩⟩
  intro h
  have h2 : chip8_emulate_cycle fuel rnd (state_at 0x51 0x21 (regs2 1 7 2 7) 0 no_keys)
      = Outcome.ok _ := rfl
  rw [h2] at h
  cases h

/-- C8, amended: for a fetched word outside family `E`, the cycle leaves
through `unknown_opcode` with the raw word exactly when the word is in family
0 with low byte other than `E0` and `EE`, or is `8xyN` with `N` in
`8..0xD` or `N = 0xF`, or is `FxKK` with `KK` none of `07, 0A, 15, 18, 1E, 29,
33, 55, 65`; and a fault never carries another word. In particular `5xyN` and
`9xyN` never fault, whatever `N` is. -/
theorem C8_unknown_opcode_exactly (fuel rnd : Nat) (s : Machine) (op : Nat)
    (h : fetch s = some op) (hE : op / 4096 % 16 ≠ 0xE) :
    (chip8_emulate_cycle fuel rnd s = Outcome.unknown_opcode op ↔
      (op / 4096 % 16 = 0 ∧ op % 256 ≠ 0xE0 ∧ op % 256 ≠ 0xEE) ∨
      (op / 4096 % 16 = 8 ∧ (8 ≤ op % 16 ∧ op % 16 ≤ 0xD ∨ op % 16 = 0xF)) ∨
      (op / 4096 % 16 = 0xF ∧
        op % 256 ∉ [0x07, 0x0A, 0x15, 0x18, 0x1E, 0x29, 0x33, 0x55, 0x65])) ∧
    (∀ w, chip8_emulate_cycle fuel rnd s = Outcome.unknown_opcode w → w = op) := by
  rw [cycle_of_fetch fuel rnd s _ h, execute_fields]
  have hlt : op / 4096 % 16 < 16 := Nat.mod_lt _ (by decide)
  generalize op / 4096 % 16 = f at hlt hE ⊢
  interval_cases f
  all_goals simp [exec_0_unknown, exec_8_unknown, exec_F_unknown, Nat.mod_lt]
  all_goals first | done | exact absurd rfl hE | (split_ifs <;> simp)

/-- C8 at the word `0123` (the "call native routine" form): the cycle leaves
through `unknown_opcode` with `0x0123`. -/
theorem C8_unknown_opcode_exactly_witness :
    (fetch (state_at 0x01 0x23 (regs2 1 0 2 0) 0 no_keys) = some 0x0123 ∧
      0x0123 / 4096 % 16 ≠ 0xE) ∧
    chip8_emulate_cycle 0 0 (state_at 0x01 0x23 (regs2 1 0 2 0) 0 no_keys)
      = Outcome.unknown_opcode 0x0123 :=
  ⟨by decide,
   (C8_unknown_opcode_exactly 0 0 (state_at 0x01 0x23 (regs2 1 0 2 0) 0 no_keys) 0x0123
      (by decide) (by decide)).1.2 (Or.inl (by decide))⟩

theorem fetch_in_bounds (s : Machine) (op : Nat) (h : fetch s = some op) :
    s.PC + 1 < 4096 := by
  unfold fetch at h
  split_ifs at h with hb
  exact hb

/-- C9: with `SP < 16`, a call `2nnn` returns with `PC = nnn`, the old
`PC + 2` in `stack[SP]` and `SP` one higher; and `00EE` run in any state that
has this `SP` and this stack slot returns with `PC` equal to the old `PC + 2`
and `SP` equal to its value before the call. -/
theorem C9_call_then_return (fuel rnd : Nat) (s : Machine) (nnn : Nat)
    (hsp : s.SP < 16) (hn : nnn < 4096) (h : fetch s = some (0x2000 + nnn)) :
    ∃ s1, chip8_emulate_cycle fuel rnd s = Outcome.ok s1 ∧
      s1.PC = nnn ∧ s1.stack s.SP = s.PC + 2 ∧ s1.SP = s.SP + 1 ∧
      ∀ fuel2 rnd2 s2, s2.SP = s1.SP → s2.stack s.SP = s1.stack s.SP →
        fetch s2 = some 0x00EE →
        ∃ s3, chip8_emulate_cycle fuel2 rnd2 s2 = Outcome.ok s3 ∧
          s3.PC = s.PC + 2 ∧ s3.SP = s.SP := by
  have hpc := fetch_in_bounds s _ h
  have h1 : (0x2000 + nnn) / 4096 % 16 = 2 := by omega
  have h2 : (0x2000 + nnn) % 4096 = nnn := by omega
  have hpc2 : (s.PC + 2) % 65536 = s.PC + 2 := by omega
  have hsp2 : (s.SP + 1) % 65536 = s.SP + 1 := by omega
  rw [cycle_of_fetch fuel rnd s _ h, execute_fields]
  simp only [h1, h2]
  simp [CHIP8_STACK_SIZE, hsp, hpc2, hsp2]
  intro fuel2 rnd2 s2 e1 e2 hf
  have hsp3 : (s2.SP + 65535) % 65536 = s.SP := by omega
  rw [cycle_of_fetch fuel2 rnd2 s2 _ hf, execute_fields]
  simp [exec_0, CHIP8_STACK_SIZE, hsp3, hsp, e2]

/-- C9 at `call_site` (call `0x300` from `PC = 0x200`) followed by the
`00EE` of `callee_site`: `PC` is back at `0x202` and `SP` at 0. -/
theorem C9_call_then_return_witness :
    (call_site.SP < 16 ∧ 0x300 < 4096 ∧ fetch call_site = some (0x2000 + 0x300) ∧
      fetch callee_site = some 0x00EE) ∧
    ∃ s1, chip8_emulate_cycle 0 0 call_site = Outcome.ok s1 ∧
      s1.PC = 0x300 ∧ s1.stack 0 = 0x202 ∧ s1.SP = 1 ∧
      ∃ s3, chip8_emulate_cycle 0 0 callee_site = Outcome.ok s3 ∧
        s3.PC = 0x202 ∧ s3.SP = 0 := by
  refine ⟨by decide, ?_⟩
  obtain ⟨s1, hc, hpc, hst, hsp, hret⟩ :=
    C9_call_then_return 0 0 call_site 0x300 (by decide) (by decide) (by decide)
  refine ⟨s1, hc, hpc, hst, hsp, ?_⟩
  exact hret 0 0 callee_site (by rw [hsp]; rfl) (by rw [hst]; rfl) (by decide)

theorem store_registers_in_bounds (V : Nat → Nat) (I : Nat) (cnt : Nat) :
    ∀ (mem : Nat → Nat) (i : Nat), I + i + cnt ≤ 4096 →
      ∃ m, store_registers V I mem i cnt = some m := by
  induction cnt with
  | zero => intro mem i _; exact ⟨mem, rfl⟩
  | succ c ih =>
    intro mem i hb
    have hi : I + i < CHIP8_MEMORY_SIZE := by unfold CHIP8_MEMORY_SIZE; omega
    simp only [store_registers, hi, if_true]
    exact ih _ (i + 1) (by omega)

theorem load_registers_in_bounds (mem : Nat → Nat) (I : Nat) (cnt : Nat) :
    ∀ (V : Nat → Nat) (i : Nat), I + i + cnt ≤ 4096 →
      ∃ W, load_registers mem I V i cnt = some W := by
  induction cnt with
  | zero => intro V i _; exact ⟨V, rfl⟩
  | succ c ih =>
    intro V i hb
    have hi : I + i < CHIP8_MEMORY_SIZE := by unfold CHIP8_MEMORY_SIZE; omega
    simp only [load_registers, hi, if_true]
    exact ih _ (i + 1) (by omega)

theorem scan_keypad_of_pressed (keypad : Nat → Nat) (k : Nat) (hk : k < 16)
    (hp : keypad k = 1) : ∃ i, scan_keypad keypad = some i := by
  cases hs : scan_keypad keypad with
  | some i => exact ⟨i, rfl⟩
  | none =>
    exfalso
    unfold scan_keypad at hs
    rw [List.find?_eq_none] at hs
    have := hs k (by simp [CHIP8_KEY_SIZE, hk])
    simp [hp] at this

theorem wait_key_of_pressed (keypad : Nat → Nat) (fuel k : Nat) (hk : k < 16)
    (hp : keypad k = 1) : ∃ i, wait_key keypad fuel = some i := by
  obtain ⟨i, hi⟩ := scan_keypad_of_pressed keypad k hk hp
  cases fuel with
  | zero => exact ⟨i, by simp [wait_key, hi]⟩
  | succ n => exact ⟨i, by simp [wait_key, hi]⟩

/-- C10 as stated fails at `F033` with `I = 0xFFF`: the stores to
`memory[I + 1]` and `memory[I + 2]` are outside the 4096 bytes of `memory`,
and the cycle does not return a state with `PC` advanced by 2. -/
theorem C10_counterexample_store_bcd_out_of_bounds :
    fetch (state_at 0xF0 0x33 (regs2 0 255 1 0) 0xFFF no_keys) = some 0xF033 ∧
    ∀ fuel rnd,
      chip8_emulate_cycle fuel rnd (state_at 0xF0 0x33 (regs2 0 255 1 0) 0xFFF no_keys)
        = Outcome.undefined ∧
      ¬ ∃ s', chip8_emulate_cycle fuel rnd (state_at 0xF0 0x33 (regs2 0 255 1 0) 0xFFF no_keys)
          = Outcome.ok s' ∧
        s'.PC = ((state_at 0xF0 0x33 (regs2 0 255 1 0) 0xFFF no_keys).PC + 2) % 65536 := by
  refine ⟨by decide, fun fuel rnd => ?_⟩
  have hu : chip8_emulate_cycle fuel rnd (state_at 0xF0 0x33 (regs2 0 255 1 0) 0xFFF no_keys)
      = Outcome.undefined := rfl
  refine ⟨hu, ?_⟩
  rintro ⟨s', hs, _⟩
  rw [hu] at hs
  cases hs

/-- C10, amended: for each listed instruction the cycle returns with `PC`
equal to the old `PC + 2` as a 16-bit value, provided the memory bytes the
instruction addresses through `I` are inside `memory` (`I + 2 < 4096` for
`Fx33`, `I + x < 4096` for `Fx55` and `Fx65`), and for `Fx0A` provided some
keypad latch is set. -/
theorem C10_pc_advances_by_two (fuel rnd : Nat) (s : Machine) (op : Nat)
    (h : fetch s = some op)
    (hw : op = 0x00E0 ∨ op / 4096 % 16 = 6 ∨ op / 4096 % 16 = 7 ∨
      (op / 4096 % 16 = 8 ∧ (op % 16 ≤ 7 ∨ op % 16 = 0xE)) ∨
      op / 4096 % 16 = 0xA ∨ op / 4096 % 16 = 0xC ∨ op / 4096 % 16 = 0xD ∨
      (op / 4096 % 16 = 0xF ∧
        (op % 256 = 0x07 ∨ op % 256 = 0x15 ∨ op % 256 = 0x18 ∨ op % 256 = 0x1E ∨
          op % 256 = 0x29 ∨
          (op % 256 = 0x33 ∧ s.I + 2 < 4096) ∨
          (op % 256 = 0x55 ∧ s.I + op / 256 % 16 < 4096) ∨
          (op % 256 = 0x65 ∧ s.I + op / 256 % 16 < 4096) ∨
          (op % 256 = 0x0A ∧ ∃ k, k < 16 ∧ s.keypad k = 1)))) :
    ∃ s', chip8_emulate_cycle fuel rnd s = Outcome.ok s' ∧
      s'.PC = (s.PC + 2) % 65536 := by
  rw [cycle_of_fetch fuel rnd s _ h, execute_fields]
  rcases hw with h0 | h6 | h7 | ⟨h8, hn⟩ | hA | hC | hD | ⟨hF, hk⟩
  · subst h0; simp [exec_0, advance]
  · simp [h6, advance, setV]
  · simp [h7, advance, setV]
  · simp only [h8]
    have hn16 : op % 16 < 16 := Nat.mod_lt _ (by decide)
    generalize op % 16 = n at hn hn16 ⊢
    have hn' : n = 0 ∨ n = 1 ∨ n = 2 ∨ n = 3 ∨ n = 4 ∨ n = 5 ∨ n = 6 ∨ n = 7 ∨ n = 14 := by
      omega
    rcases hn' with e | e | e | e | e | e | e | e | e <;> subst e <;>
      simp [exec_8, advance, setV]
  · simp [hA, advance]
  · simp [hC, advance, setV]
  · simp [hD, advance]
  · simp only [hF]
    rcases hk with e | e | e | e | e | ⟨e, hb⟩ | ⟨e, hb⟩ | ⟨e, hb⟩ | ⟨e, k, hk, hp⟩
    · simp [exec_F, e, advance, setV]
    · simp [exec_F, e, advance, setV]
    · simp [exec_F, e, advance, setV]
    · simp [exec_F, e, advance, setV]
    · simp [exec_F, e, advance, setV]
    · simp [exec_F, e, advance, setV, setMem, CHIP8_MEMORY_SIZE, hb]
    · obtain ⟨m, hm⟩ := store_registers_in_bounds s.V s.I (op / 256 % 16 + 1) s.memory 0
        (by omega)
      simp [exec_F, e, advance, hm]
    · obtain ⟨W, hW⟩ := load_registers_in_bounds s.memory s.I (op / 256 % 16 + 1) s.V 0
        (by omega)
      simp [exec_F, e, advance, hW]
    · obtain ⟨i, hi⟩ := wait_key_of_pressed s.keypad fuel k hk hp
      simp [exec_F, e, advance, setV, hi]

/-- C10 at `F133` with `V[1] = 255` and `I = 0x300`: the three stores are
inside `memory` and `PC` goes from `0x200` to `0x202`. -/
theorem C10_pc_advances_by_two_witness :
    (fetch (state_at 0xF1 0x33 (regs2 1 255 2 0) 0x300 no_keys) = some 0xF133 ∧
      0xF133 / 4096 % 16 = 0xF ∧ 0xF133 % 256 = 0x33 ∧
      (state_at 0xF1 0x33 (regs2 1 255 2 0) 0x300 no_keys).I + 2 < 4096) ∧
    ∃ s', chip8_emulate_cycle 0 0 (state_at 0xF1 0x33 (regs2 1 255 2 0) 0x300 no_keys)
        = Outcome.ok s' ∧
      s'.PC = ((state_at 0xF1 0x33 (regs2 1 255 2 0) 0x300 no_keys).PC + 2) % 65536 :=
  ⟨by decide,
   C10_pc_advances_by_two 0 0 (state_at 0xF1 0x33 (regs2 1 255 2 0) 0x300 no_keys) 0xF133
     (by decide)
     (Or.inr (Or.inr (Or.inr (Or.inr (Or.inr (Or.inr (Or.inr
       ⟨by decide, Or.inr (Or.inr (Or.inr (Or.inr (Or.inr (Or.inl
         ⟨by decide, by decide⟩)))))⟩)))))))⟩

/-! ## What the code does on the instructions of C1, C2, C3, C5, C6, C7 -/

/-- On `8xy4` with `x` and `y` both different from `0xF` the sum and the carry
are those of the old `V[x]` and `V[y]`. -/
theorem add_registers_of_ne_flag (fuel rnd : Nat) (s : Machine) (x y : Nat)
    (hx : x < 0xF) (hy : y < 0xF)
    (h : fetch s = some (0x8004 + 0x100 * x + 0x10 * y)) :
    ∃ s', chip8_emulate_cycle fuel rnd s = Outcome.ok s' ∧
      s'.V x = (s.V x + s.V y) % 256 ∧
      s'.V 0xF = if s.V x + s.V y > 255 then 1 else 0 := by
  have hne : x ≠ 15 := by omega
  have hne2 : (15 : Nat) ≠ x := by omega
  have hne3 : y ≠ 15 := by omega
  have h1 : (0x8004 + 0x100 * x + 0x10 * y) / 4096 % 16 = 8 := by omega
  have h2 : (0x8004 + 0x100 * x + 0x10 * y) / 256 % 16 = x := by omega
  have h3 : (0x8004 + 0x100 * x + 0x10 * y) / 16 % 16 = y := by omega
  have h4 : (0x8004 + 0x100 * x + 0x10 * y) % 16 = 4 := by omega
  rw [cycle_family_8 fuel rnd s _ h h1, h2, h3, h4]
  refine ⟨_, rfl, ?_, ?_⟩
  · simp [setV, advance, Function.update, hne, hne3]
  · simp [setV, advance, Function.update, hne2]
    split_ifs <;> omega

/-- On `8xy4` with `y = 0xF` and `x ≠ 0xF` the sum adds the new flag, not
the old `V[0xF]`. -/
theorem add_registers_of_flag_operand (fuel rnd : Nat) (s : Machine) (x : Nat)
    (hx : x < 0xF)
    (h : fetch s = some (0x8004 + 0x100 * x + 0x10 * 0xF)) :
    ∃ s', chip8_emulate_cycle fuel rnd s = Outcome.ok s' ∧
      s'.V x = (s.V x + (if s.V x + s.V 0xF > 255 then 1 else 0)) % 256 ∧
      s'.V 0xF = if s.V x + s.V 0xF > 255 then 1 else 0 := by
  have hne : x ≠ 15 := by omega
  have hne2 : (15 : Nat) ≠ x := by omega
  have h1 : (0x8004 + 0x100 * x + 0x10 * 0xF) / 4096 % 16 = 8 := by omega
  have h2 : (0x8004 + 0x100 * x + 0x10 * 0xF) / 256 % 16 = x := by omega
  have h3 : (0x8004 + 0x100 * x + 0x10 * 0xF) / 16 % 16 = 15 := by omega
  have h4 : (0x8004 + 0x100 * x + 0x10 * 0xF) % 16 = 4 := by omega
  rw [cycle_family_8 fuel rnd s _ h h1, h2, h3, h4]
  refine ⟨_, rfl, ?_, ?_⟩
  · simp [setV, advance, Function.update, hne]
    split_ifs <;> first | rfl | omega
  · simp [setV, advance, Function.update, hne2]
    split_ifs <;> omega

/-- On `8xy5` and `8xy7` with `x`, `y` different from `0xF` the difference is
the wrapped one and the flag is 1 exactly when the minuend is strictly
greater than the subtrahend. -/
theorem subtract_flag_is_strict (fuel rnd : Nat) (s : Machine) (x y : Nat)
    (hx : x < 0xF) (hy : y < 0xF) (hvx : s.V x < 256) (hvy : s.V y < 256) :
    (fetch s = some (0x8005 + 0x100 * x + 0x10 * y) →
      ∃ s', chip8_emulate_cycle fuel rnd s = Outcome.ok s' ∧
        s'.V x = (s.V x + 256 - s.V y) % 256 ∧
        s'.V 0xF = if s.V x > s.V y then 1 else 0) ∧
    (fetch s = some (0x8007 + 0x100 * x + 0x10 * y) →
      ∃ s', chip8_emulate_cycle fuel rnd s = Outcome.ok s' ∧
        s'.V x = (s.V y + 256 - s.V x) % 256 ∧
        s'.V 0xF = if s.V y > s.V x then 1 else 0) := by
  have hne : x ≠ 15 := by omega
  have hne2 : (15 : Nat) ≠ x := by omega
  have hne3 : y ≠ 15 := by omega
  constructor
  · intro h
    have h1 : (0x8005 + 0x100 * x + 0x10 * y) / 4096 % 16 = 8 := by omega
    have h2 : (0x8005 + 0x100 * x + 0x10 * y) / 256 % 16 = x := by omega
    have h3 : (0x8005 + 0x100 * x + 0x10 * y) / 16 % 16 = y := by omega
    have h4 : (0x8005 + 0x100 * x + 0x10 * y) % 16 = 5 := by omega
    rw [cycle_family_8 fuel rnd s _ h h1, h2, h3, h4]
    refine ⟨_, rfl, ?_, ?_⟩
    · simp [setV, advance, Function.update, hne, hne3]
      omega
    · simp [setV, advance, Function.update, hne2]
  · intro h
    have h1 : (0x8007 + 0x100 * x + 0x10 * y) / 4096 % 16 = 8 := by omega
    have h2 : (0x8007 + 0x100 * x + 0x10 * y) / 256 % 16 = x := by omega
    have h3 : (0x8007 + 0x100 * x + 0x10 * y) / 16 % 16 = y := by omega
    have h4 : (0x8007 + 0x100 * x + 0x10 * y) % 16 = 7 := by omega
    rw [cycle_family_8 fuel rnd s _ h h1, h2, h3, h4]
    refine ⟨_, rfl, ?_, ?_⟩
    · simp [setV, advance, Function.update, hne, hne3]
      omega
    · simp [setV, advance, Function.update, hne2]

/-- On `8xyE` with `x ≠ 0xF` the register is doubled modulo 256 and the flag
is bit 0 of the old value. -/
theorem shift_left_flag_is_low_bit (fuel rnd : Nat) (s : Machine) (x y : Nat)
    (hx : x < 0xF) (hy : y < 16)
    (h : fetch s = some (0x800E + 0x100 * x + 0x10 * y)) :
    ∃ s', chip8_emulate_cycle fuel rnd s = Outcome.ok s' ∧
      s'.V x = (s.V x * 2) % 256 ∧ s'.V 0xF = s.V x % 2 := by
  have hne : x ≠ 15 := by omega
  have hne2 : (15 : Nat) ≠ x := by omega
  have h1 : (0x800E + 0x100 * x + 0x10 * y) / 4096 % 16 = 8 := by omega
  have h2 : (0x800E + 0x100 * x + 0x10 * y) / 256 % 16 = x := by omega
  have h3 : (0x800E + 0x100 * x + 0x10 * y) / 16 % 16 = y := by omega
  have h4 : (0x800E + 0x100 * x + 0x10 * y) % 16 = 14 := by omega
  rw [cycle_family_8 fuel rnd s _ h h1, h2, h3, h4]
  refine ⟨_, rfl, ?_, ?_⟩
  · simp [setV, advance, Function.update, hne, Nat.shiftLeft_eq]
  · simp [setV, advance, Function.update, hne2, and_000F]

/-- On `3xkk`, `4xkk`, `5xyN` and `9xyN` the program counter moves as
follows (each line is the code's `if`). -/
theorem skip_compare_pc (fuel rnd : Nat) (s : Machine) (x y kk n : Nat)
    (hx : x < 16) (hy : y < 16) (hkk : kk < 256) (hn : n < 16) :
    (fetch s = some (0x3000 + 0x100 * x + kk) →
      ∃ s', chip8_emulate_cycle fuel rnd s = Outcome.ok s' ∧
        s'.PC = if s.V x = kk then (s.PC + 2) % 65536 else (s.PC + 4) % 65536) ∧
    (fetch s = some (0x4000 + 0x100 * x + kk) →
      ∃ s', chip8_emulate_cycle fuel rnd s = Outcome.ok s' ∧
        s'.PC = if s.V x ≠ kk then (s.PC + 2) % 65536 else (s.PC + 4) % 65536) ∧
    (fetch s = some (0x5000 + 0x100 * x + 0x10 * y + n) →
      ∃ s', chip8_emulate_cycle fuel rnd s = Outcome.ok s' ∧
        s'.PC = if s.V x = s.V y then (s.PC + 2) % 65536 else (s.PC + 4) % 65536) ∧
    (fetch s = some (0x9000 + 0x100 * x + 0x10 * y + n) →
      ∃ s', chip8_emulate_cycle fuel rnd s = Outcome.ok s' ∧
        s'.PC = if s.V x ≠ s.V y then (s.PC + 2) % 65536 else s.PC) := by
  refine ⟨fun h => ?_, fun h => ?_, fun h => ?_, fun h => ?_⟩
  · have h1 : (0x3000 + 0x100 * x + kk) / 4096 % 16 = 3 := by omega
    have h2 : (0x3000 + 0x100 * x + kk) / 256 % 16 = x := by omega
    have h3 : (0x3000 + 0x100 * x + kk) % 256 = kk := by omega
    rw [cycle_of_fetch fuel rnd s _ h, execute_fields]
    simp only [h1, h2, h3]
    by_cases e : s.V x = kk <;> simp [e, advance]
  · have h1 : (0x4000 + 0x100 * x + kk) / 4096 % 16 = 4 := by omega
    have h2 : (0x4000 + 0x100 * x + kk) / 256 % 16 = x := by omega
    have h3 : (0x4000 + 0x100 * x + kk) % 256 = kk := by omega
    rw [cycle_of_fetch fuel rnd s _ h, execute_fields]
    simp only [h1, h2, h3]
    by_cases e : s.V x = kk <;> simp [e, advance]
  · have h1 : (0x5000 + 0x100 * x + 0x10 * y + n) / 4096 % 16 = 5 := by omega
    have h2 : (0x5000 + 0x100 * x + 0x10 * y + n) / 256 % 16 = x := by omega
    have h3 : (0x5000 + 0x100 * x + 0x10 * y + n) / 16 % 16 = y := by omega
    rw [cycle_of_fetch fuel rnd s _ h, execute_fields]
    simp only [h1, h2, h3]
    by_cases e : s.V x = s.V y <;> simp [e, advance]
  · have h1 : (0x9000 + 0x100 * x + 0x10 * y + n) / 4096 % 16 = 9 := by omega
    have h2 : (0x9000 + 0x100 * x + 0x10 * y + n) / 256 % 16 = x := by omega
    have h3 : (0x9000 + 0x100 * x + 0x10 * y + n) / 16 % 16 = y := by omega
    rw [cycle_of_fetch fuel rnd s _ h, execute_fields]
    simp only [h1, h2, h3]
    by_cases e : s.V x = s.V y <;> simp [e, advance]

/-- On `Ex9E` and `ExA1` with `V[x] < 16` the program counter moves by 2
when the test holds and stays where it is otherwise. -/
theorem skip_key_pc (fuel rnd : Nat) (s : Machine) (x : Nat)
    (hx : x < 16) (hv : s.V x < 16) :
    (fetch s = some (0xE09E + 0x100 * x) →
      ∃ s', chip8_emulate_cycle fuel rnd s = Outcome.ok s' ∧
        s'.PC = if s.keypad (s.V x) = 1 then (s.PC + 2) % 65536 else s.PC) ∧
    (fetch s = some (0xE0A1 + 0x100 * x) →
      ∃ s', chip8_emulate_cycle fuel rnd s = Outcome.ok s' ∧
        s'.PC = if s.keypad (s.V x) = 0 then (s.PC + 2) % 65536 else s.PC) := by
  refine ⟨fun h => ?_, fun h => ?_⟩
  · have h1 : (0xE09E + 0x100 * x) / 4096 % 16 = 14 := by omega
    have h2 : (0xE09E + 0x100 * x) / 256 % 16 = x := by omega
    have h3 : (0xE09E + 0x100 * x) % 256 = 0x9E := by omega
    rw [cycle_of_fetch fuel rnd s _ h, execute_fields]
    simp only [h1, h2, h3]
    by_cases e : s.keypad (s.V x) = 1 <;> simp [exec_E, CHIP8_KEY_SIZE, hv, e, advance]
  · have h1 : (0xE0A1 + 0x100 * x) / 4096 % 16 = 14 := by omega
    have h2 : (0xE0A1 + 0x100 * x) / 256 % 16 = x := by omega
    have h3 : (0xE0A1 + 0x100 * x) % 256 = 0xA1 := by omega
    rw [cycle_of_fetch fuel rnd s _ h, execute_fields]
    simp only [h1, h2, h3]
    by_cases e : s.keypad (s.V x) = 0 <;> simp [exec_E, CHIP8_KEY_SIZE, hv, e, advance]

/-! ## Timers, initial state, font address, BCD -/

theorem load_fontset_apply (cnt : Nat) :
    ∀ (mem : Nat → Nat) (i a : Nat),
      load_fontset mem i cnt a =
        if i ≤ a ∧ a < i + cnt then chip8_fontset.getD a 0 else mem a := by
  induction cnt with
  | zero =>
    intro mem i a
    have h : ¬ (i ≤ a ∧ a < i + 0) := by omega
    rw [if_neg h]; rfl
  | succ c ih =>
    intro mem i a
    rw [load_fontset, ih]
    by_cases h3 : i + 1 ≤ a ∧ a < i + 1 + c
    · have h4 : i ≤ a ∧ a < i + (c + 1) := by omega
      rw [if_pos h3, if_pos h4]
    · rw [if_neg h3]
      by_cases h1 : a = i
      · subst h1
        have h4 : a ≤ a ∧ a < a + (c + 1) := by omega
        rw [if_pos h4]
        show Function.update mem (0 + a) _ a = _
        rw [Nat.zero_add, Function.update_same]
      · have h4 : ¬ (i ≤ a ∧ a < i + (c + 1)) := by omega
        rw [if_neg h4]
        simp [FONTSET_ADDRESS, Function.update, h1]

/-- C17: `chip8_tick` lowers each of `delay_timer` and `sound_timer` by one
when it is positive and leaves it at 0 otherwise, independently of the other,
and changes no other global. -/
theorem C17_tick_decrements_timers (s : Machine) :
    (chip8_tick s).delay_timer = (if s.delay_timer > 0 then s.delay_timer - 1 else 0) ∧
    (chip8_tick s).sound_timer = (if s.sound_timer > 0 then s.sound_timer - 1 else 0) ∧
    (chip8_tick s).memory = s.memory ∧ (chip8_tick s).V = s.V ∧
    (chip8_tick s).I = s.I ∧ (chip8_tick s).PC = s.PC ∧
    (chip8_tick s).stack = s.stack ∧ (chip8_tick s).SP = s.SP ∧
    (chip8_tick s).keypad = s.keypad ∧ (chip8_tick s).frame_buffer = s.frame_buffer ∧
    (chip8_tick s).draw_flag = s.draw_flag ∧ (chip8_tick s).opcode = s.opcode := by
  unfold chip8_tick
  by_cases hd : s.delay_timer > 0 <;> by_cases hs : s.sound_timer > 0 <;>
    simp [hd, hs] <;> omega

/-- C19: after `chip8_init`, whatever the prior state, `memory[0..79]` is the
font table, `memory[80..4095]` is 0, `PC = 0x200`, and the registers, `I`,
`SP`, both timers, the stack, the keypad and the frame buffer are 0. -/
theorem C19_init_state (prior : Machine) :
    (∀ i, i < 80 → (chip8_init prior).memory i = chip8_fontset.getD i 0) ∧
    (∀ i, 80 ≤ i → i < 4096 → (chip8_init prior).memory i = 0) ∧
    (chip8_init prior).PC = 0x200 ∧
    (∀ i, i < 16 → (chip8_init prior).V i = 0) ∧
    (chip8_init prior).I = 0 ∧ (chip8_init prior).SP = 0 ∧
    (chip8_init prior).delay_timer = 0 ∧ (chip8_init prior).sound_timer = 0 ∧
    (∀ i, i < 16 → (chip8_init prior).stack i = 0) ∧
    (∀ i, i < 16 → (chip8_init prior).keypad i = 0) ∧
    (∀ r c, r < 32 → c < 64 → (chip8_init prior).frame_buffer r c = 0) := by
  have hlen : chip8_fontset.length = 80 := rfl
  refine ⟨?_, ?_, rfl, fun _ _ => rfl, rfl, rfl, rfl, rfl, fun _ _ => rfl, fun _ _ => rfl,
    fun _ _ _ _ => rfl⟩
  · intro i hi
    simp only [chip8_init, load_fontset_apply, hlen]
    simp [hi]
  · intro i hi _
    simp only [chip8_init, load_fontset_apply, hlen]
    have : ¬ i < 80 := by omega
    simp [this]


/-- C19 on a prior state in mid-session (`callee_site`): the last font byte
`memory[79]` is `0x80`, `memory[80]` is 0, `V[3]`, the stack slot 0 and a
frame-buffer cell are 0. -/
theorem C19_init_state_witness :
    (79 < 80 ∧ 80 ≤ 80 ∧ 80 < 4096 ∧ 3 < 16 ∧ 0 < 16 ∧ 31 < 32 ∧ 63 < 64) ∧
    (chip8_init callee_site).memory 79 = 0x80 ∧
    (chip8_init callee_site).memory 80 = 0 ∧
    (chip8_init callee_site).V 3 = 0 ∧
    (chip8_init callee_site).stack 0 = 0 ∧
    (chip8_init callee_site).frame_buffer 31 63 = 0 :=
  ⟨by decide,
   ((C19_init_state callee_site).1 79 (by decide)).trans (by decide),
   (C19_init_state callee_site).2.1 80 (by decide) (by decide),
   (C19_init_state callee_site).2.2.2.1 3 (by decide),
   (C19_init_state callee_site).2.2.2.2.2.2.2.2.1 0 (by decide),
   (C19_init_state callee_site).2.2.2.2.2.2.2.2.2.2 31 63 (by decide) (by decide)⟩

/-- A cycle on a word of family F is the `switch (kk)` of that family. -/
theorem cycle_family_F (fuel rnd : Nat) (s : Machine) (op : Nat)
    (h : fetch s = some op) (hfam : op / 4096 % 16 = 0xF) :
    chip8_emulate_cycle fuel rnd s =
      exec_F fuel { s with opcode := op } (op / 256 % 16) (op % 256) := by
  rw [cycle_of_fetch fuel rnd s _ h, execute_fields]
  simp [hfam]

/-- C20 as stated fails at `F129` with `V[1] = 0x10`: the cycle sets
`I = 5 * 0x10 = 80`, not `5 * (0x10 & 0x0F) = 0`, and 80 is past the last
glyph offset 75. -/
theorem C20_counterexample_font_address_unmasked :
    fetch (state_at 0xF1 0x29 (regs2 1 0x10 2 0) 0 no_keys) = some 0xF129 ∧
    5 * (0x10 &&& 0x0F) = 0 ∧
    ∀ fuel rnd, ∃ s',
      chip8_emulate_cycle fuel rnd (state_at 0xF1 0x29 (regs2 1 0x10 2 0) 0 no_keys)
        = Outcome.ok s' ∧
      s'.I = 80 ∧ s'.I ≠ 5 * (0x10 &&& 0x0F) ∧ ¬ s'.I ≤ 75 := by
  refine ⟨by decide, by decide, fun fuel rnd => ?_⟩
  refine ⟨_, rfl, ?_, ?_, ?_⟩ <;> decide

/-- C20, amended: `Fx29` sets `I` to `5 * V[x]`; when `V[x] ≤ 15` this is
`5 * (V[x] & 0x0F)`, the offset of the glyph of that digit, so that `I ≤ 75`
and `I .. I + 4` lies inside the 80-byte font table. -/
theorem C20_font_address (fuel rnd : Nat) (s : Machine) (x : Nat)
    (hx : x < 16) (hv : s.V x < 256)
    (h : fetch s = some (0xF029 + 0x100 * x)) :
    ∃ s', chip8_emulate_cycle fuel rnd s = Outcome.ok s' ∧
      s'.I = 5 * s.V x ∧
      (s.V x ≤ 15 → s'.I = 5 * (s.V x &&& 0x0F) ∧ s'.I ≤ 75 ∧
        FONTSET_ADDRESS ≤ s'.I ∧ s'.I + 4 < FONTSET_ADDRESS + chip8_fontset.length) := by
  have h1 : (0xF029 + 0x100 * x) / 4096 % 16 = 0xF := by omega
  have h2 : (0xF029 + 0x100 * x) / 256 % 16 = x := by omega
  have h3 : (0xF029 + 0x100 * x) % 256 = 0x29 := by omega
  have hlen : chip8_fontset.length = 80 := rfl
  rw [cycle_family_F fuel rnd s _ h h1, h2, h3]
  have hI : (s.V x * FONTSET_BYTES_PER_CHAR) % 65536 = 5 * s.V x := by
    unfold FONTSET_BYTES_PER_CHAR; omega
  refine ⟨_, rfl, ?_, ?_⟩
  · simp [advance, hI]
  · intro h15
    have hm : s.V x &&& 0x0F = s.V x := by
      rw [and_000F]; omega
    show (s.V x * FONTSET_BYTES_PER_CHAR) % 65536 = 5 * (s.V x &&& 0x0F) ∧
      (s.V x * FONTSET_BYTES_PER_CHAR) % 65536 ≤ 75 ∧
      FONTSET_ADDRESS ≤ (s.V x * FONTSET_BYTES_PER_CHAR) % 65536 ∧
      (s.V x * FONTSET_BYTES_PER_CHAR) % 65536 + 4 < FONTSET_ADDRESS + chip8_fontset.length
    rw [hI, hm, hlen]
    unfold FONTSET_ADDRESS
    omega

/-- C20 at `F129` with `V[1] = 0x0A`: `I = 50`, the offset of glyph `A`. -/
theorem C20_font_address_witness :
    (1 < 16 ∧ (state_at 0xF1 0x29 (regs2 1 0x0A 2 0) 0 no_keys).V 1 < 256 ∧
      fetch (state_at 0xF1 0x29 (regs2 1 0x0A 2 0) 0 no_keys) = some (0xF029 + 0x100 * 1) ∧
      (state_at 0xF1 0x29 (regs2 1 0x0A 2 0) 0 no_keys).V 1 ≤ 15) ∧
    ∃ s', chip8_emulate_cycle 0 0 (state_at 0xF1 0x29 (regs2 1 0x0A 2 0) 0 no_keys)
        = Outcome.ok s' ∧ s'.I = 50 ∧ s'.I ≤ 75 := by
  refine ⟨by decide, ?_⟩
  obtain ⟨s', hc, hI, hg⟩ :=
    C20_font_address 0 0 (state_at 0xF1 0x29 (regs2 1 0x0A 2 0) 0 no_keys) 1
      (by decide) (by decide) (by decide)
  exact ⟨s', hc, hI.trans (by decide), (hg (by decide)).2.1⟩

/-- C14: `Fx33` with `V[x]` a byte and `I + 2 < 4096` returns with
`memory[I]`, `memory[I+1]`, `memory[I+2]` the hundreds, tens and ones digit of
`V[x]`; every other memory byte, every register and `I` are unchanged. -/
theorem C14_store_bcd (fuel rnd : Nat) (s : Machine) (x : Nat)
    (hx : x < 16) (hv : s.V x < 256) (hI : s.I + 2 < 4096)
    (h : fetch s = some (0xF033 + 0x100 * x)) :
    ∃ s', chip8_emulate_cycle fuel rnd s = Outcome.ok s' ∧
      s'.memory s.I = s.V x / 100 ∧
      s'.memory (s.I + 1) = (s.V x / 10) % 10 ∧
      s'.memory (s.I + 2) = s.V x % 10 ∧
      s'.memory s.I ≤ 9 ∧ s'.memory (s.I + 1) ≤ 9 ∧ s'.memory (s.I + 2) ≤ 9 ∧
      100 * s'.memory s.I + 10 * s'.memory (s.I + 1) + s'.memory (s.I + 2) = s.V x ∧
      (∀ a, a ≠ s.I → a ≠ s.I + 1 → a ≠ s.I + 2 → s'.memory a = s.memory a) ∧
      s'.V = s.V ∧ s'.I = s.I := by
  have h1 : (0xF033 + 0x100 * x) / 4096 % 16 = 0xF := by omega
  have h2 : (0xF033 + 0x100 * x) / 256 % 16 = x := by omega
  have h3 : (0xF033 + 0x100 * x) % 256 = 0x33 := by omega
  have hb : s.I + 2 < CHIP8_MEMORY_SIZE := hI
  have hm : s.V x / 100 % 256 = s.V x / 100 := by omega
  rw [cycle_family_F fuel rnd s _ h h1, h2, h3]
  have e : exec_F fuel { s with opcode := 0xF033 + 0x100 * x } x 0x33 =
      Outcome.ok (advance (setMem (setMem (setMem { s with opcode := 0xF033 + 0x100 * x }
        s.I (s.V x / 100)) (s.I + 1) ((s.V x / 10) % 10)) (s.I + 2) (s.V x % 10)) 2) := by
    simp [exec_F, hb, hm, setMem]
  rw [e]
  refine ⟨_, rfl, ?_, ?_, ?_, ?_, ?_, ?_, ?_, ?_, rfl, rfl⟩
  all_goals simp [advance, setMem, Function.update]
  all_goals try omega
  intro a ha0 ha1 ha2
  simp [ha0, ha1, ha2]

/-- C14 at the spec's example: `F133` with `V[1] = 255`, `I = 0x300` stores
2, 5, 5. -/
theorem C14_store_bcd_witness :
    (1 < 16 ∧ (state_at 0xF1 0x33 (regs2 1 255 2 0) 0x300 no_keys).V 1 < 256 ∧
      (state_at 0xF1 0x33 (regs2 1 255 2 0) 0x300 no_keys).I + 2 < 4096 ∧
      fetch (state_at 0xF1 0x33 (regs2 1 255 2 0) 0x300 no_keys) = some (0xF033 + 0x100 * 1)) ∧
    ∃ s', chip8_emulate_cycle 0 0 (state_at 0xF1 0x33 (regs2 1 255 2 0) 0x300 no_keys)
        = Outcome.ok s' ∧
      s'.memory 0x300 = 2 ∧ s'.memory 0x301 = 5 ∧ s'.memory 0x302 = 5 := by
  refine ⟨by decide, ?_⟩
  obtain ⟨s', hc, m0, m1, m2, _⟩ :=
    C14_store_bcd 0 0 (state_at 0xF1 0x33 (regs2 1 255 2 0) 0x300 no_keys) 1
      (by decide) (by decide) (by decide) (by decide)
  exact ⟨s', hc, m0.trans (by decide), m1.trans (by decide), m2.trans (by decide)⟩

/-! ## Draw-sprite and wait-for-key -/

/-- C11 as stated fails on `D011` run twice with the sprite byte `0xFF` at
`I = 0x300`, `V[0] = V[1] = 0` and every cell off: the cell `(0, 0)` is still
off after the first draw and `V[0xF]` is 0, not 1, after the second. -/
theorem C11_counterexample_draw_sprite_blits_nothing :
    fetch (program_at 0xD0 0x11 0xD0 0x11 0xFF 0 (fun _ => 0)) = some 0xD011 ∧
    (program_at 0xD0 0x11 0xD0 0x11 0xFF 0 (fun _ => 0)).memory
      (program_at 0xD0 0x11 0xD0 0x11 0xFF 0 (fun _ => 0)).I = 0xFF ∧
    ∀ fuel rnd, ∃ s1 s2,
      chip8_emulate_cycle fuel rnd (program_at 0xD0 0x11 0xD0 0x11 0xFF 0 (fun _ => 0))
        = Outcome.ok s1 ∧
      fetch s1 = some 0xD011 ∧
      chip8_emulate_cycle fuel rnd s1 = Outcome.ok s2 ∧
      s1.frame_buffer 0 0 = 0 ∧ s2.frame_buffer 0 0 = 0 ∧
      s2.V 0xF = 0 ∧ s2.V 0xF ≠ 1 := by
  refine ⟨by decide, by decide, fun fuel rnd => ?_⟩
  refine ⟨_, _, rfl, ?_, rfl, ?_, ?_, ?_, ?_⟩ <;> decide

/-- C11, amended: on `Dxyn` the cycle returns with `frame_buffer`, every
register (`V[0xF]` included), `memory` and `I` unchanged, `draw_flag` true
and `PC` advanced by 2; no cell is drawn (the call of `draw_sprite` is
compiled out). -/
theorem C11_draw_sprite_only_sets_draw_flag (fuel rnd : Nat) (s : Machine) (x y n : Nat)
    (hx : x < 16) (hy : y < 16) (hn : n < 16)
    (h : fetch s = some (0xD000 + 0x100 * x + 0x10 * y + n)) :
    ∃ s', chip8_emulate_cycle fuel rnd s = Outcome.ok s' ∧
      s'.frame_buffer = s.frame_buffer ∧ s'.V = s.V ∧
      s'.memory = s.memory ∧ s'.I = s.I ∧
      s'.draw_flag = true ∧ s'.PC = (s.PC + 2) % 65536 := by
  have h1 : (0xD000 + 0x100 * x + 0x10 * y + n) / 4096 % 16 = 0xD := by omega
  rw [cycle_of_fetch fuel rnd s _ h, execute_fields]
  simp [h1, advance]

/-- C11 at `D011` with the sprite byte `0xFF` at `I`: the cell `(0, 0)` stays
off and `draw_flag` is set. -/
theorem C11_draw_sprite_only_sets_draw_flag_witness :
    (0 < 16 ∧ 1 < 16 ∧
      fetch (program_at 0xD0 0x11 0xD0 0x11 0xFF 0 (fun _ => 0))
        = some (0xD000 + 0x100 * 0 + 0x10 * 1 + 1)) ∧
    ∃ s', chip8_emulate_cycle 0 0 (program_at 0xD0 0x11 0xD0 0x11 0xFF 0 (fun _ => 0))
        = Outcome.ok s' ∧
      s'.frame_buffer 0 0 = 0 ∧ s'.draw_flag = true := by
  refine ⟨by decide, ?_⟩
  obtain ⟨s', hc, hfb, _, _, _, hd, _⟩ :=
    C11_draw_sprite_only_sets_draw_flag 0 0 (program_at 0xD0 0x11 0xD0 0x11 0xFF 0 (fun _ => 0))
      0 1 1 (by decide) (by decide) (by decide) (by decide)
  exact ⟨s', hc, by rw [hfb]; rfl, hd⟩

theorem find_range'_first (p : Nat → Bool) (k : Nat) (hp : p k = true)
    (hlow : ∀ j, j < k → p j = false) :
    ∀ (m s : Nat), s ≤ k → k < s + m → (List.range' s m).find? p = some k := by
  intro m
  induction m with
  | zero => intro s h1 h2; omega
  | succ c ih =>
    intro s h1 h2
    rw [List.range'_succ]
    by_cases e : s = k
    · subst e; rw [List.find?_cons_of_pos _ hp]
    · have hs : ¬ (p s = true) := by rw [hlow s (by omega)]; simp
      rw [List.find?_cons_of_neg _ hs]
      exact ih (s + 1) (by omega) (by omega)

theorem scan_keypad_lowest (keypad : Nat → Nat) (k : Nat) (hk : k < 16)
    (hp : keypad k = 1) (hlow : ∀ j, j < k → keypad j ≠ 1) :
    scan_keypad keypad = some k := by
  unfold scan_keypad
  rw [List.range_eq_range']
  apply find_range'_first _ k
  · simp [hp]
  · intro j hj; simp [hlow j hj]
  · omega
  · simp [CHIP8_KEY_SIZE, hk]

theorem scan_keypad_none (keypad : Nat → Nat) (h : ∀ i, i < 16 → keypad i ≠ 1) :
    scan_keypad keypad = none := by
  unfold scan_keypad
  rw [List.find?_eq_none]
  intro i hi
  have : i < 16 := by simpa [CHIP8_KEY_SIZE] using hi
  simp [h i this]

theorem wait_key_lowest (keypad : Nat → Nat) (fuel k : Nat) (hk : k < 16)
    (hp : keypad k = 1) (hlow : ∀ j, j < k → keypad j ≠ 1) :
    wait_key keypad fuel = some k := by
  have hs := scan_keypad_lowest keypad k hk hp hlow
  cases fuel with
  | zero => simp [wait_key, hs]
  | succ n => simp [wait_key, hs]

theorem wait_key_none (keypad : Nat → Nat) (h : ∀ i, i < 16 → keypad i ≠ 1) :
    ∀ fuel, wait_key keypad fuel = none := by
  have hs := scan_keypad_none keypad h
  intro fuel
  induction fuel with
  | zero => simp [wait_key, hs]
  | succ n ih => simp [wait_key, hs, ih]

/-- C12 as stated fails on `F10A` with every keypad latch 0: whatever the
number of passes of the `while (true)` loop, the cycle is still inside the
loop and has not returned. -/
theorem C12_counterexample_wait_for_key_spins :
    fetch (state_at 0xF1 0x0A (regs2 1 0 2 0) 0 no_keys) = some 0xF10A ∧
    (∀ i, i < 16 → no_keys i = 0) ∧
    ∀ fuel rnd,
      chip8_emulate_cycle fuel rnd (state_at 0xF1 0x0A (regs2 1 0 2 0) 0 no_keys)
        = Outcome.spinning ∧
      ¬ ∃ s', chip8_emulate_cycle fuel rnd (state_at 0xF1 0x0A (regs2 1 0 2 0) 0 no_keys)
        = Outcome.ok s' := by
  refine ⟨by decide, fun _ _ => rfl, fun fuel rnd => ?_⟩
  have hw : wait_key no_keys fuel = none :=
    wait_key_none no_keys (fun i _ => by simp [no_keys]) fuel
  have hs : chip8_emulate_cycle fuel rnd (state_at 0xF1 0x0A (regs2 1 0 2 0) 0 no_keys)
      = Outcome.spinning := by
    rw [cycle_family_F fuel rnd _ 0xF10A (by decide) (by decide)]
    simp [exec_F, state_at, hw]
  refine ⟨hs, ?_⟩
  rintro ⟨s', h⟩
  rw [hs] at h
  cases h

/-- C12, amended: on `Fx0A` in a state where no keypad latch equals 1, the
cycle never returns: for every number of passes of the `while (true)` loop it
is still inside the loop, and no state with a changed `PC` or register is
produced. -/
theorem C12_wait_for_key_never_returns (s : Machine) (x : Nat) (hx : x < 16)
    (h : fetch s = some (0xF00A + 0x100 * x))
    (hk : ∀ i, i < 16 → s.keypad i ≠ 1) :
    ∀ fuel rnd, chip8_emulate_cycle fuel rnd s = Outcome.spinning ∧
      ¬ ∃ s', chip8_emulate_cycle fuel rnd s = Outcome.ok s' := by
  intro fuel rnd
  have h1 : (0xF00A + 0x100 * x) / 4096 % 16 = 0xF := by omega
  have h2 : (0xF00A + 0x100 * x) / 256 % 16 = x := by omega
  have h3 : (0xF00A + 0x100 * x) % 256 = 0x0A := by omega
  have hw := wait_key_none s.keypad hk fuel
  have hs : chip8_emulate_cycle fuel rnd s = Outcome.spinning := by
    rw [cycle_family_F fuel rnd s _ h h1, h2, h3]
    simp [exec_F, hw]
  refine ⟨hs, ?_⟩
  rintro ⟨s', h'⟩
  rw [hs] at h'
  cases h'

/-- C12 on `F10A` with every keypad latch 0, after 1000 further passes of
the loop. -/
theorem C12_wait_for_key_never_returns_witness :
    (1 < 16 ∧ fetch (state_at 0xF1 0x0A (regs2 1 0 2 0) 0 no_keys) = some (0xF00A + 0x100 * 1) ∧
      ∀ i, i < 16 → (state_at 0xF1 0x0A (regs2 1 0 2 0) 0 no_keys).keypad i ≠ 1) ∧
    chip8_emulate_cycle 1000 0 (state_at 0xF1 0x0A (regs2 1 0 2 0) 0 no_keys)
      = Outcome.spinning :=
  ⟨⟨by decide, by decide, fun i _ => by simp [state_at, no_keys]⟩,
   (C12_wait_for_key_never_returns (state_at 0xF1 0x0A (regs2 1 0 2 0) 0 no_keys) 1
      (by decide) (by decide) (fun i _ => by simp [state_at, no_keys]) 1000 0).1⟩

/-- C13: on `Fx0A` in a state where `k` is the lowest index with
`keypad[k] = 1`, the cycle returns (with no further pass of the loop needed)
with `V[x] = k` and `PC` advanced by 2; every other register, `memory`, both
timers, the keypad, `I`, the stack, `SP` and the frame buffer are unchanged. -/
theorem C13_wait_for_key_stores_lowest (fuel rnd : Nat) (s : Machine) (x k : Nat)
    (hx : x < 16) (h : fetch s = some (0xF00A + 0x100 * x))
    (hk : k < 16) (hp : s.keypad k = 1) (hlow : ∀ j, j < k → s.keypad j ≠ 1) :
    ∃ s', chip8_emulate_cycle fuel rnd s = Outcome.ok s' ∧
      s'.V x = k ∧ k ≤ 15 ∧ s'.PC = (s.PC + 2) % 65536 ∧
      (∀ j, j ≠ x → s'.V j = s.V j) ∧
      s'.memory = s.memory ∧ s'.delay_timer = s.delay_timer ∧
      s'.sound_timer = s.sound_timer ∧ s'.keypad = s.keypad ∧
      s'.I = s.I ∧ s'.stack = s.stack ∧ s'.SP = s.SP ∧
      s'.frame_buffer = s.frame_buffer := by
  have h1 : (0xF00A + 0x100 * x) / 4096 % 16 = 0xF := by omega
  have h2 : (0xF00A + 0x100 * x) / 256 % 16 = x := by omega
  have h3 : (0xF00A + 0x100 * x) % 256 = 0x0A := by omega
  have hw := wait_key_lowest s.keypad fuel k hk hp hlow
  have e : chip8_emulate_cycle fuel rnd s =
      Outcome.ok (advance (setV { s with opcode := 0xF00A + 0x100 * x } x k) 2) := by
    rw [cycle_family_F fuel rnd s _ h h1, h2, h3]
    simp [exec_F, hw]
  rw [e]
  refine ⟨_, rfl, ?_, by omega, rfl, ?_, rfl, rfl, rfl, rfl, rfl, rfl, rfl, rfl⟩
  · simp [advance, setV]
  · intro j hj
    simp [advance, setV, Function.update, hj]

/-- C13 on `F10A` with only `keypad[3]` set: `V[1] = 3`, `PC = 0x202`. -/
theorem C13_wait_for_key_stores_lowest_witness :
    (1 < 16 ∧ fetch (state_at 0xF1 0x0A (regs2 1 0 2 0) 0 (key_down 3)) = some (0xF00A + 0x100 * 1) ∧
      3 < 16 ∧ (state_at 0xF1 0x0A (regs2 1 0 2 0) 0 (key_down 3)).keypad 3 = 1 ∧
      ∀ j, j < 3 → (state_at 0xF1 0x0A (regs2 1 0 2 0) 0 (key_down 3)).keypad j ≠ 1) ∧
    ∃ s', chip8_emulate_cycle 0 0 (state_at 0xF1 0x0A (regs2 1 0 2 0) 0 (key_down 3))
        = Outcome.ok s' ∧ s'.V 1 = 3 ∧ s'.PC = 0x202 := by
  have hl : ∀ j, j < 3 → (state_at 0xF1 0x0A (regs2 1 0 2 0) 0 (key_down 3)).keypad j ≠ 1 := by
    intro j hj
    have : j ≠ 3 := by omega
    simp [state_at, key_down, this]
  refine ⟨⟨by decide, by decide, by decide, by decide, hl⟩, ?_⟩
  obtain ⟨s', hc, hv, _, hpc, _⟩ :=
    C13_wait_for_key_stores_lowest 0 0 (state_at 0xF1 0x0A (regs2 1 0 2 0) 0 (key_down 3)) 1 3
      (by decide) (by decide) (by decide) (by decide) hl
  exact ⟨s', hc, hv, hpc.trans (by decide)⟩

/-! ## Store-registers and load-registers -/

theorem store_registers_apply (V : Nat → Nat) (I : Nat) (cnt : Nat) :
    ∀ (mem : Nat → Nat) (i : Nat), I + i + cnt ≤ 4096 →
      ∃ m, store_registers V I mem i cnt = some m ∧
        ∀ a, m a = if I + i ≤ a ∧ a < I + i + cnt then V (a - I) else mem a := by
  induction cnt with
  | zero =>
    intro mem i _
    refine ⟨mem, rfl, fun a => ?_⟩
    have h : ¬ (I + i ≤ a ∧ a < I + i + 0) := by omega
    rw [if_neg h]
  | succ c ih =>
    intro mem i hb
    have hi : I + i < CHIP8_MEMORY_SIZE := by unfold CHIP8_MEMORY_SIZE; omega
    obtain ⟨m, hm, hma⟩ := ih (Function.update mem (I + i) (V i)) (i + 1) (by omega)
    refine ⟨m, by simp only [store_registers, hi, if_true]; exact hm, fun a => ?_⟩
    rw [hma a]
    by_cases h3 : I + (i + 1) ≤ a ∧ a < I + (i + 1) + c
    · have h4 : I + i ≤ a ∧ a < I + i + (c + 1) := by omega
      rw [if_pos h3, if_pos h4]
    · rw [if_neg h3]
      by_cases h1 : a = I + i
      · subst h1
        have h4 : I + i ≤ I + i ∧ I + i < I + i + (c + 1) := by omega
        rw [if_pos h4, Function.update_same]
        congr 1; omega
      · have h4 : ¬ (I + i ≤ a ∧ a < I + i + (c + 1)) := by omega
        rw [if_neg h4, Function.update_noteq h1]

theorem load_registers_apply (mem : Nat → Nat) (I : Nat) (cnt : Nat) :
    ∀ (V : Nat → Nat) (i : Nat), I + i + cnt ≤ 4096 →
      ∃ W, load_registers mem I V i cnt = some W ∧
        ∀ j, W j = if i ≤ j ∧ j < i + cnt then mem (I + j) else V j := by
  induction cnt with
  | zero =>
    intro V i _
    refine ⟨V, rfl, fun j => ?_⟩
    have h : ¬ (i ≤ j ∧ j < i + 0) := by omega
    rw [if_neg h]
  | succ c ih =>
    intro V i hb
    have hi : I + i < CHIP8_MEMORY_SIZE := by unfold CHIP8_MEMORY_SIZE; omega
    obtain ⟨W, hW, hWj⟩ := ih (Function.update V i (mem (I + i))) (i + 1) (by omega)
    refine ⟨W, by simp only [load_registers, hi, if_true]; exact hW, fun j => ?_⟩
    rw [hWj j]
    by_cases h3 : i + 1 ≤ j ∧ j < i + 1 + c
    · have h4 : i ≤ j ∧ j < i + (c + 1) := by omega
      rw [if_pos h3, if_pos h4]
    · rw [if_neg h3]
      by_cases h1 : j = i
      · subst h1
        have h4 : j ≤ j ∧ j < j + (c + 1) := by omega
        rw [if_pos h4, Function.update_same]
      · have h4 : ¬ (i ≤ j ∧ j < i + (c + 1)) := by omega
        rw [if_neg h4, Function.update_noteq h1]

/-- C15: `Fx55` with `I + x < 4096` returns with `memory[I + i] = V[i]` for
every `i ≤ x`, every other memory byte and every register unchanged, and `I`
raised by `x + 1`. -/
theorem C15_store_registers (fuel rnd : Nat) (s : Machine) (x : Nat)
    (hx : x < 16) (hI : s.I + x < 4096)
    (h : fetch s = some (0xF055 + 0x100 * x)) :
    ∃ s', chip8_emulate_cycle fuel rnd s = Outcome.ok s' ∧
      (∀ i, i ≤ x → s'.memory (s.I + i) = s.V i) ∧
      (∀ a, (a < s.I ∨ s.I + x < a) → s'.memory a = s.memory a) ∧
      s'.V = s.V ∧ s'.I = s.I + x + 1 := by
  have h1 : (0xF055 + 0x100 * x) / 4096 % 16 = 0xF := by omega
  have h2 : (0xF055 + 0x100 * x) / 256 % 16 = x := by omega
  have h3 : (0xF055 + 0x100 * x) % 256 = 0x55 := by omega
  have hI2 : (s.I + (x + 1)) % 65536 = s.I + x + 1 := by omega
  obtain ⟨m, hm, hma⟩ := store_registers_apply s.V s.I (x + 1) s.memory 0 (by omega)
  have e : chip8_emulate_cycle fuel rnd s =
      Outcome.ok (advance { s with opcode := 0xF055 + 0x100 * x, memory := m,
                                   I := s.I + x + 1 } 2) := by
    rw [cycle_family_F fuel rnd s _ h h1, h2, h3]
    simp [exec_F, hm, hI2]
  rw [e]
  refine ⟨_, rfl, ?_, ?_, rfl, rfl⟩
  · intro i hi
    show m (s.I + i) = s.V i
    rw [hma]
    have h4 : s.I + 0 ≤ s.I + i ∧ s.I + i < s.I + 0 + (x + 1) := by omega
    rw [if_pos h4]
    congr 1; omega
  · intro a ha
    show m a = s.memory a
    rw [hma]
    have h4 : ¬ (s.I + 0 ≤ a ∧ a < s.I + 0 + (x + 1)) := by omega
    rw [if_neg h4]

/-- C15 on `F155` with `V[0] = 0xAB`, `V[1] = 0xCD`, `I = 0x300`. -/
theorem C15_store_registers_witness :
    (1 < 16 ∧ (program_at 0xF1 0x55 0xF1 0x65 0 0 (regs2 0 0xAB 1 0xCD)).I + 1 < 4096 ∧
      fetch (program_at 0xF1 0x55 0xF1 0x65 0 0 (regs2 0 0xAB 1 0xCD))
        = some (0xF055 + 0x100 * 1)) ∧
    ∃ s', chip8_emulate_cycle 0 0 (program_at 0xF1 0x55 0xF1 0x65 0 0 (regs2 0 0xAB 1 0xCD))
        = Outcome.ok s' ∧
      s'.memory 0x300 = 0xAB ∧ s'.memory 0x301 = 0xCD ∧ s'.memory 0x302 = 0 ∧
      s'.I = 0x302 := by
  refine ⟨by decide, ?_⟩
  obtain ⟨s', hc, hm, hf, _, hI⟩ :=
    C15_store_registers 0 0 (program_at 0xF1 0x55 0xF1 0x65 0 0 (regs2 0 0xAB 1 0xCD)) 1
      (by decide) (by decide) (by decide)
  exact ⟨s', hc, (hm 0 (by decide)).trans (by decide), (hm 1 (by decide)).trans (by decide),
    (hf 0x302 (Or.inr (by decide))).trans (by decide), hI.trans (by decide)⟩

/-- C16: after `Fx55` in a state `s` with `I + x < 4096`, `Fx65` run in any
state that has the resulting memory and the index register of `s` returns
with `V[i]` equal to the `V[i]` of `s` for `i ≤ x`, its other registers and
the memory unchanged, and `I` raised by `x + 1`. -/
theorem C16_load_inverts_store (fuel rnd : Nat) (s : Machine) (x : Nat)
    (hx : x < 16) (hI : s.I + x < 4096)
    (h : fetch s = some (0xF055 + 0x100 * x)) :
    ∃ s1, chip8_emulate_cycle fuel rnd s = Outcome.ok s1 ∧
      ∀ fuel2 rnd2 s2, s2.memory = s1.memory → s2.I = s.I →
        fetch s2 = some (0xF065 + 0x100 * x) →
        ∃ s3, chip8_emulate_cycle fuel2 rnd2 s2 = Outcome.ok s3 ∧
          (∀ i, i ≤ x → s3.V i = s.V i) ∧
          (∀ j, x < j → s3.V j = s2.V j) ∧
          s3.memory = s2.memory ∧ s3.I = s.I + x + 1 := by
  have h1 : (0xF055 + 0x100 * x) / 4096 % 16 = 0xF := by omega
  have h2 : (0xF055 + 0x100 * x) / 256 % 16 = x := by omega
  have h3 : (0xF055 + 0x100 * x) % 256 = 0x55 := by omega
  have hI2 : (s.I + (x + 1)) % 65536 = s.I + x + 1 := by omega
  obtain ⟨m, hm, hma⟩ := store_registers_apply s.V s.I (x + 1) s.memory 0 (by omega)
  have e : chip8_emulate_cycle fuel rnd s =
      Outcome.ok (advance { s with opcode := 0xF055 + 0x100 * x, memory := m,
                                   I := s.I + x + 1 } 2) := by
    rw [cycle_family_F fuel rnd s _ h h1, h2, h3]
    simp [exec_F, hm, hI2]
  rw [e]
  refine ⟨_, rfl, ?_⟩
  intro fuel2 rnd2 s2 hmem hidx hf
  have hmem2 : s2.memory = m := hmem
  have g1 : (0xF065 + 0x100 * x) / 4096 % 16 = 0xF := by omega
  have g2 : (0xF065 + 0x100 * x) / 256 % 16 = x := by omega
  have g3 : (0xF065 + 0x100 * x) % 256 = 0x65 := by omega
  have hI3 : (s2.I + (x + 1)) % 65536 = s.I + x + 1 := by omega
  obtain ⟨W, hW, hWj⟩ := load_registers_apply s2.memory s2.I (x + 1) s2.V 0 (by omega)
  have e2 : chip8_emulate_cycle fuel2 rnd2 s2 =
      Outcome.ok (advance { s2 with opcode := 0xF065 + 0x100 * x, V := W,
                                    I := s.I + x + 1 } 2) := by
    rw [cycle_family_F fuel2 rnd2 s2 _ hf g1, g2, g3]
    simp [exec_F, hW, hI3]
  rw [e2]
  refine ⟨_, rfl, ?_, ?_, rfl, rfl⟩
  · intro i hi
    show W i = s.V i
    have h4 : 0 ≤ i ∧ i < 0 + (x + 1) := by omega
    rw [hWj, if_pos h4, hmem2, hidx, hma]
    have h5 : s.I + 0 ≤ s.I + i ∧ s.I + i < s.I + 0 + (x + 1) := by omega
    rw [if_pos h5]
    congr 1; omega
  · intro j hj
    show W j = s2.V j
    have h4 : ¬ (0 ≤ j ∧ j < 0 + (x + 1)) := by omega
    rw [hWj, if_neg h4]

/-- C16 on `F155` then `F165` with `V[0] = 0xAB`, `V[1] = 0xCD`, `I = 0x300`:
after the store, in the state with `I` back at `0x300`, `PC` at the `F165`
and every register overwritten with 7, the load brings back `V[0]` and `V[1]`
and leaves `V[2] = 7`. -/
theorem C16_load_inverts_store_witness :
    (1 < 16 ∧ (program_at 0xF1 0x55 0xF1 0x65 0 0 (regs2 0 0xAB 1 0xCD)).I + 1 < 4096 ∧
      fetch (program_at 0xF1 0x55 0xF1 0x65 0 0 (regs2 0 0xAB 1 0xCD))
        = some (0xF055 + 0x100 * 1)) ∧
    ∃ s1, chip8_emulate_cycle 0 0 (program_at 0xF1 0x55 0xF1 0x65 0 0 (regs2 0 0xAB 1 0xCD))
        = Outcome.ok s1 ∧
      fetch { s1 with I := 0x300, V := fun _ => 7 } = some (0xF065 + 0x100 * 1) ∧
      ∃ s3, chip8_emulate_cycle 0 0 { s1 with I := 0x300, V := fun _ => 7 } = Outcome.ok s3 ∧
        s3.V 0 = 0xAB ∧ s3.V 1 = 0xCD ∧ s3.V 2 = 7 ∧ s3.I = 0x302 := by
  refine ⟨by decide, ?_⟩
  obtain ⟨s1, hc, hret⟩ :=
    C16_load_inverts_store 0 0 (program_at 0xF1 0x55 0xF1 0x65 0 0 (regs2 0 0xAB 1 0xCD)) 1
      (by decide) (by decide) (by decide)
  have e : chip8_emulate_cycle 0 0 (program_at 0xF1 0x55 0xF1 0x65 0 0 (regs2 0 0xAB 1 0xCD))
      = Outcome.ok _ := rfl
  have hs1 := hc
  rw [e] at hs1
  have hs1' := Outcome.ok.inj hs1
  have hf : fetch { s1 with I := 0x300, V := fun _ => 7 } = some (0xF065 + 0x100 * 1) := by
    rw [← hs1']; decide
  obtain ⟨s3, hc3, hv, hj, _, hI⟩ :=
    hret 0 0 { s1 with I := 0x300, V := fun _ => 7 } rfl rfl hf
  exact ⟨s1, hc, hf, s3, hc3, (hv 0 (by decide)).trans (by decide),
    (hv 1 (by decide)).trans (by decide), hj 2 (by decide), hI.trans (by decide)⟩

/-! ## The stack pointer along a run -/

theorem exec_0_SP (s t : Machine) (kk : Nat) (h : exec_0 s kk = Outcome.ok t)
    (hs : s.SP ≤ 16) : t.SP ≤ 16 := by
  by_cases h1 : kk = 0xE0
  · subst h1; simp [exec_0] at h; rw [← h]; exact hs
  by_cases h2 : kk = 0xEE
  · subst h2; simp [exec_0, CHIP8_STACK_SIZE] at h
    split_ifs at h with hb
    simp at h
    rw [← h]
    exact Nat.le_of_lt hb
  simp [exec_0, h1, h2] at h

theorem exec_8_SP (s t : Machine) (x y n : Nat) (hn : n < 16)
    (h : exec_8 s x y n = Outcome.ok t) : t.SP = s.SP := by
  interval_cases n <;> simp [exec_8] at h <;> (rw [← h]; rfl)

theorem exec_E_SP (s t : Machine) (x kk : Nat) (h : exec_E s x kk = Outcome.ok t) :
    t.SP = s.SP := by
  unfold exec_E at h
  split_ifs at h <;> simp at h <;> first | done | (rw [← h]; done) | (rw [← h]; rfl)

theorem exec_F_SP (fuel : Nat) (s t : Machine) (x kk : Nat)
    (h : exec_F fuel s x kk = Outcome.ok t) : t.SP = s.SP := by
  by_cases h1 : kk = 0x07
  · subst h1; simp [exec_F] at h; rw [← h]; rfl
  by_cases h2 : kk = 0x0A
  · subst h2; simp [exec_F] at h
    cases hw : wait_key s.keypad fuel with
    | none => simp [hw] at h
    | some i => simp [hw] at h; rw [← h]; rfl
  by_cases h3 : kk = 0x15
  · subst h3; simp [exec_F] at h; rw [← h]; rfl
  by_cases h4 : kk = 0x18
  · subst h4; simp [exec_F] at h; rw [← h]; rfl
  by_cases h5 : kk = 0x1E
  · subst h5; simp [exec_F] at h; rw [← h]; rfl
  by_cases h6 : kk = 0x29
  · subst h6; simp [exec_F] at h; rw [← h]; rfl
  by_cases h7 : kk = 0x33
  · subst h7; simp [exec_F] at h
    split_ifs at h
    · simp at h; rw [← h]; rfl
  by_cases h8 : kk = 0x55
  · subst h8; simp [exec_F] at h
    cases hw : store_registers s.V s.I s.memory 0 (x + 1) with
    | none => simp [hw] at h
    | some m => simp [hw] at h; rw [← h]; rfl
  by_cases h9 : kk = 0x65
  · subst h9; simp [exec_F] at h
    cases hw : load_registers s.memory s.I s.V 0 (x + 1) with
    | none => simp [hw] at h
    | some W => simp [hw] at h; rw [← h]; rfl
  simp [exec_F, h1, h2, h3, h4, h5, h6, h7, h8, h9] at h

theorem cycle_SP_le (fuel rnd : Nat) (s t : Machine)
    (h : chip8_emulate_cycle fuel rnd s = Outcome.ok t) (hs : s.SP ≤ 16) : t.SP ≤ 16 := by
  cases hf : fetch s with
  | none => simp [chip8_emulate_cycle, hf] at h
  | some op =>
    rw [cycle_of_fetch fuel rnd s op hf, execute_fields] at h
    have hlt : op / 4096 % 16 < 16 := Nat.mod_lt _ (by decide)
    have hn : op % 16 < 16 := Nat.mod_lt _ (by decide)
    simp only at h
    generalize op / 4096 % 16 = f at hlt h
    interval_cases f
    all_goals simp at h
    · exact exec_0_SP _ t _ h hs
    · rw [← h]; exact hs
    · split_ifs at h with hb
      simp at h
      unfold CHIP8_STACK_SIZE at hb
      rw [← h]
      show (s.SP + 1) % 65536 ≤ 16
      omega
    · split_ifs at h <;> simp at h <;> (rw [← h]; exact hs)
    · split_ifs at h <;> simp at h <;> (rw [← h]; exact hs)
    · split_ifs at h <;> simp at h <;> (rw [← h]; exact hs)
    · rw [← h]; exact hs
    · rw [← h]; exact hs
    · rw [exec_8_SP _ t _ _ _ hn h]; exact hs
    · split_ifs at h <;> simp at h <;> (rw [← h]; exact hs)
    · rw [← h]; exact hs
    · rw [← h]; exact hs
    · rw [← h]; exact hs
    · rw [← h]; exact hs
    · rw [exec_E_SP _ t _ _ h]; exact hs
    · rw [exec_F_SP fuel _ t _ _ h]; exact hs

theorem reachable_SP_le (game : List Nat) (s : Machine) (hr : Reachable game s) :
    s.SP ≤ 16 := by
  induction hr with
  | start prior => exact Nat.zero_le 16
  | cycle fuel rnd s t _ hc ih => exact cycle_SP_le fuel rnd s t hc ih
  | tick s _ ih =>
    have e : (chip8_tick s).SP = s.SP := by
      unfold chip8_tick
      by_cases hd : s.delay_timer > 0 <;> by_cases hs : s.sound_timer > 0 <;> simp [hd, hs]
    rw [e]; exact ih

/-- C18 as stated fails at the start of a session whose program image is
`00 EE`: the return with `SP = 0` decrements `SP` to `0xFFFF` and reads
`stack[0xFFFF]`, outside the 16 slots; the cycle reports no fault. -/
theorem C18_counterexample_return_on_empty_stack :
    Reachable [0x00, 0xEE] (chip8_loadgame [0x00, 0xEE] (chip8_init call_site)) ∧
    (chip8_loadgame [0x00, 0xEE] (chip8_init call_site)).SP = 0 ∧
    fetch (chip8_loadgame [0x00, 0xEE] (chip8_init call_site)) = some 0x00EE ∧
    ∀ fuel rnd,
      chip8_emulate_cycle fuel rnd (chip8_loadgame [0x00, 0xEE] (chip8_init call_site))
        = Outcome.undefined ∧
      ∀ w, chip8_emulate_cycle fuel rnd (chip8_loadgame [0x00, 0xEE] (chip8_init call_site))
        ≠ Outcome.unknown_opcode w := by
  refine ⟨Reachable.start call_site, rfl, by decide, fun fuel rnd => ?_⟩
  have hu : chip8_emulate_cycle fuel rnd (chip8_loadgame [0x00, 0xEE] (chip8_init call_site))
      = Outcome.undefined := by
    rw [cycle_of_fetch fuel rnd _ 0x00EE (by decide), execute_fields]
    simp [exec_0, chip8_loadgame, chip8_init, CHIP8_STACK_SIZE]
  refine ⟨hu, fun w hw => ?_⟩
  rw [hu] at hw
  cases hw

/-- C18, amended: in every state of a session (reached from `chip8_init` and
`chip8_loadgame` through cycles that return and ticks) `SP ≤ 16`; a call that
returns wrote `stack[SP]` with `SP < 16`, and a return that returns read
`stack[SP - 1]` with `0 < SP`. A call run with `SP = 16` and a return run
with `SP = 0` report no fault: they index `stack` outside its 16 slots. -/
theorem C18_stack_pointer_within_capacity (game : List Nat) (s : Machine)
    (hr : Reachable game s) :
    s.SP ≤ 16 ∧
    (∀ fuel rnd nnn t, nnn < 4096 → fetch s = some (0x2000 + nnn) →
      chip8_emulate_cycle fuel rnd s = Outcome.ok t → s.SP < 16 ∧ t.SP = s.SP + 1) ∧
    (∀ fuel rnd t, fetch s = some 0x00EE →
      chip8_emulate_cycle fuel rnd s = Outcome.ok t →
      0 < s.SP ∧ s.SP - 1 < 16 ∧ t.SP = s.SP - 1) ∧
    (∀ fuel rnd nnn, nnn < 4096 → fetch s = some (0x2000 + nnn) → s.SP = 16 →
      chip8_emulate_cycle fuel rnd s = Outcome.undefined) ∧
    (∀ fuel rnd, fetch s = some 0x00EE → s.SP = 0 →
      chip8_emulate_cycle fuel rnd s = Outcome.undefined) := by
  have hle := reachable_SP_le game s hr
  refine ⟨hle, ?_, ?_, ?_, ?_⟩
  · intro fuel rnd nnn t hn hf hc
    have h1 : (0x2000 + nnn) / 4096 % 16 = 2 := by omega
    rw [cycle_of_fetch fuel rnd s _ hf, execute_fields] at hc
    simp only [h1] at hc
    simp [CHIP8_STACK_SIZE] at hc
    split_ifs at hc with hb
    simp at hc
    refine ⟨hb, ?_⟩
    rw [← hc]
    show (s.SP + 1) % 65536 = s.SP + 1
    omega
  · intro fuel rnd t hf hc
    rw [cycle_of_fetch fuel rnd s _ hf, execute_fields] at hc
    simp [exec_0, CHIP8_STACK_SIZE] at hc
    split_ifs at hc with hb
    simp at hc
    have hsp : t.SP = (s.SP + 65535) % 65536 := by rw [← hc]
    omega
  · intro fuel rnd nnn hn hf h16
    have h1 : (0x2000 + nnn) / 4096 % 16 = 2 := by omega
    rw [cycle_of_fetch fuel rnd s _ hf, execute_fields]
    simp only [h1]
    simp [CHIP8_STACK_SIZE, h16]
  · intro fuel rnd hf h0
    rw [cycle_of_fetch fuel rnd s _ hf, execute_fields]
    simp [exec_0, CHIP8_STACK_SIZE, h0]

/-- C18 on the session whose program image is `22 00` (a call of `0x200`
at `0x200`), after its first cycle: `SP = 1`. -/
theorem C18_stack_pointer_within_capacity_witness :
    (0x200 < 4096 ∧
      fetch (chip8_loadgame [0x22, 0x00] (chip8_init call_site)) = some (0x2000 + 0x200)) ∧
    ∃ t, chip8_emulate_cycle 0 0 (chip8_loadgame [0x22, 0x00] (chip8_init call_site))
        = Outcome.ok t ∧
      Reachable [0x22, 0x00] t ∧ t.SP ≤ 16 ∧ t.SP = 1 := by
  refine ⟨by decide, ?_⟩
  have hc : chip8_emulate_cycle 0 0 (chip8_loadgame [0x22, 0x00] (chip8_init call_site))
      = Outcome.ok _ := rfl
  have hr : Reachable [0x22, 0x00] _ :=
    Reachable.cycle 0 0 _ _ (Reachable.start call_site) hc
  exact ⟨_, hc, hr, (C18_stack_pointer_within_capacity [0x22, 0x00] _ hr).1,
    ((C18_stack_pointer_within_capacity [0x22, 0x00] _ (Reachable.start call_site)).2.1
      0 0 0x200 _ (by decide) (by decide) hc).2⟩

/-! ## Random-and-mask and clear-screen -/

theorem and_mask_and_complement (a kk : Nat) (hkk : kk < 256) :
    (a &&& kk) &&& (0xFF ^^^ kk) = 0 := by
  apply Nat.eq_of_testBit_eq
  intro i
  simp only [Nat.testBit_and, Nat.testBit_xor, Nat.zero_testBit]
  by_cases hi : i < 8
  · have hf : Nat.testBit 0xFF i = true := by
      have := Nat.testBit_two_pow_sub_one 8 i
      simpa [hi] using this
    rw [hf]
    cases a.testBit i <;> cases kk.testBit i <;> rfl
  · have hk : kk.testBit i = false := by
      apply Nat.testBit_lt_two_pow
      calc kk < 2 ^ 8 := hkk
        _ ≤ 2 ^ i := Nat.pow_le_pow_right (by decide) (by omega)
    rw [hk]
    simp

/-- C21: on `Cxkk`, with `r` what `rand()` returns, the cycle returns with
`V[x] = (r % 0xFF) & kk`; `r % 0xFF` is a byte, and `V[x]` has no bit outside
the mask: `V[x] & (0xFF ^ kk) = 0`, and every bit that is 0 in `kk` is 0 in
`V[x]`. -/
theorem C21_random_and_mask (fuel r : Nat) (s : Machine) (x kk : Nat)
    (hx : x < 16) (hkk : kk < 256)
    (h : fetch s = some (0xC000 + 0x100 * x + kk)) :
    ∃ s', chip8_emulate_cycle fuel r s = Outcome.ok s' ∧
      s'.V x = (r % 0xFF) &&& kk ∧ r % 0xFF < 256 ∧
      s'.V x &&& (0xFF ^^^ kk) = 0 ∧
      (∀ i, kk.testBit i = false → (s'.V x).testBit i = false) := by
  have h1 : (0xC000 + 0x100 * x + kk) / 4096 % 16 = 0xC := by omega
  have h2 : (0xC000 + 0x100 * x + kk) / 256 % 16 = x := by omega
  have h3 : (0xC000 + 0x100 * x + kk) % 256 = kk := by omega
  have hle : (r % 0xFF) &&& kk ≤ kk := Nat.and_le_right
  have hm : ((r % 0xFF) &&& kk) % 256 = (r % 0xFF) &&& kk := by omega
  have e : chip8_emulate_cycle fuel r s =
      Outcome.ok (advance (setV { s with opcode := 0xC000 + 0x100 * x + kk } x
        ((r % 0xFF) &&& kk)) 2) := by
    rw [cycle_of_fetch fuel r s _ h, execute_fields]
    simp only [h1, h2, h3]
    simp [hm]
  have hv : (advance (setV { s with opcode := 0xC000 + 0x100 * x + kk } x
      ((r % 0xFF) &&& kk)) 2).V x = (r % 0xFF) &&& kk := by
    simp [advance, setV]
  rw [e]
  refine ⟨_, rfl, hv, by omega, ?_, ?_⟩
  · rw [hv]; exact and_mask_and_complement _ _ hkk
  · intro i hi
    rw [hv, Nat.testBit_and, hi, Bool.and_false]

/-- C21 on `C10F` with `rand()` returning 1000: `1000 % 255 = 235 = 0xEB`,
and `V[1] = 0xEB & 0x0F = 0x0B`. -/
theorem C21_random_and_mask_witness :
    (1 < 16 ∧ 0x0F < 256 ∧
      fetch (state_at 0xC1 0x0F (regs2 1 0xFF 2 0) 0 no_keys) = some (0xC000 + 0x100 * 1 + 0x0F)) ∧
    ∃ s', chip8_emulate_cycle 0 1000 (state_at 0xC1 0x0F (regs2 1 0xFF 2 0) 0 no_keys)
        = Outcome.ok s' ∧
      s'.V 1 = 0x0B ∧ s'.V 1 &&& (0xFF ^^^ 0x0F) = 0 := by
  refine ⟨by decide, ?_⟩
  obtain ⟨s', hc, hv, _, hz, _⟩ :=
    C21_random_and_mask 0 1000 (state_at 0xC1 0x0F (regs2 1 0xFF 2 0) 0 no_keys) 1 0x0F
      (by decide) (by decide) (by decide)
  exact ⟨s', hc, hv.trans (by decide), hz⟩

/-- C22: on `00E0` the cycle returns with every frame-buffer cell 0 and
`draw_flag` true; `memory`, the registers, `I`, the stack, `SP`, both timers
and the keypad are unchanged. -/
theorem C22_clear_screen (fuel rnd : Nat) (s : Machine)
    (h : fetch s = some 0x00E0) :
    ∃ s', chip8_emulate_cycle fuel rnd s = Outcome.ok s' ∧
      (∀ r c, r < CHIP_SCREEN_HEIGHT → c < CHIP_SCREEN_WIDTH → s'.frame_buffer r c = 0) ∧
      s'.draw_flag = true ∧
      s'.memory = s.memory ∧ s'.V = s.V ∧ s'.I = s.I ∧
      s'.stack = s.stack ∧ s'.SP = s.SP ∧
      s'.delay_timer = s.delay_timer ∧ s'.sound_timer = s.sound_timer ∧
      s'.keypad = s.keypad := by
  have e : chip8_emulate_cycle fuel rnd s =
      Outcome.ok (advance { s with opcode := 0x00E0, frame_buffer := fun _ _ => 0,
                                   draw_flag := true } 2) := by
    rw [cycle_of_fetch fuel rnd s _ h, execute_fields]
    simp [exec_0]
  rw [e]
  exact ⟨_, rfl, fun _ _ _ _ => rfl, rfl, rfl, rfl, rfl, rfl, rfl, rfl, rfl, rfl⟩

/-- C22 on `00E0` in a state whose frame-buffer cells are all 1: the cell
`(31, 63)` is 0 afterwards and `draw_flag` is set. -/
theorem C22_clear_screen_witness :
    (fetch { state_at 0x00 0xE0 (regs2 1 5 2 0) 0 no_keys with frame_buffer := fun _ _ => 1 }
        = some 0x00E0 ∧
      31 < CHIP_SCREEN_HEIGHT ∧ 63 < CHIP_SCREEN_WIDTH) ∧
    ∃ s', chip8_emulate_cycle 0 0
        { state_at 0x00 0xE0 (regs2 1 5 2 0) 0 no_keys with frame_buffer := fun _ _ => 1 }
        = Outcome.ok s' ∧
      s'.frame_buffer 31 63 = 0 ∧ s'.draw_flag = true ∧ s'.V 1 = 5 := by
  refine ⟨by decide, ?_⟩
  obtain ⟨s', hc, hfb, hd, _, hV, _⟩ :=
    C22_clear_screen 0 0
      { state_at 0x00 0xE0 (regs2 1 5 2 0) 0 no_keys with frame_buffer := fun _ _ => 1 }
      (by decide)
  exact ⟨s', hc, hfb 31 63 (by decide) (by decide), hd, by rw [hV]; rfl⟩

/-! ## Timers and keypad under instruction execution -/

theorem exec_0_timers_keypad (s t : Machine) (kk : Nat) (h : exec_0 s kk = Outcome.ok t) :
    t.delay_timer = s.delay_timer ∧ t.sound_timer = s.sound_timer ∧
      t.keypad = s.keypad := by
  by_cases h1 : kk = 0xE0
  · subst h1; simp [exec_0] at h; rw [← h]; exact ⟨rfl, rfl, rfl⟩
  by_cases h2 : kk = 0xEE
  · subst h2; simp [exec_0] at h
    split_ifs at h with hb
    simp at h
    rw [← h]; exact ⟨rfl, rfl, rfl⟩
  simp [exec_0, h1, h2] at h

theorem exec_8_timers_keypad (s t : Machine) (x y n : Nat) (hn : n < 16)
    (h : exec_8 s x y n = Outcome.ok t) :
    t.delay_timer = s.delay_timer ∧ t.sound_timer = s.sound_timer ∧
      t.keypad = s.keypad := by
  interval_cases n <;> simp [exec_8] at h <;> (rw [← h]; exact ⟨rfl, rfl, rfl⟩)

theorem exec_E_timers_keypad (s t : Machine) (x kk : Nat)
    (h : exec_E s x kk = Outcome.ok t) :
    t.delay_timer = s.delay_timer ∧ t.sound_timer = s.sound_timer ∧
      t.keypad = s.keypad := by
  unfold exec_E at h
  split_ifs at h <;> simp at h <;> first | done | (rw [← h]; exact ⟨rfl, rfl, rfl⟩)

theorem exec_F_timers_keypad (fuel : Nat) (s t : Machine) (x kk : Nat)
    (h : exec_F fuel s x kk = Outcome.ok t) :
    t.delay_timer = (if kk = 0x15 then s.V x else s.delay_timer) ∧
      t.sound_timer = (if kk = 0x18 then s.V x else s.sound_timer) ∧
      t.keypad = s.keypad := by
  by_cases h1 : kk = 0x07
  · subst h1; simp [exec_F] at h; rw [← h]; exact ⟨rfl, rfl, rfl⟩
  by_cases h2 : kk = 0x0A
  · subst h2; simp [exec_F] at h
    cases hw : wait_key s.keypad fuel with
    | none => simp [hw] at h
    | some i => simp [hw] at h; rw [← h]; exact ⟨rfl, rfl, rfl⟩
  by_cases h3 : kk = 0x15
  · subst h3; simp [exec_F] at h; rw [← h]; exact ⟨rfl, rfl, rfl⟩
  by_cases h4 : kk = 0x18
  · subst h4; simp [exec_F] at h; rw [← h]; exact ⟨rfl, rfl, rfl⟩
  by_cases h5 : kk = 0x1E
  · subst h5; simp [exec_F] at h; rw [← h]; exact ⟨rfl, rfl, rfl⟩
  by_cases h6 : kk = 0x29
  · subst h6; simp [exec_F] at h; rw [← h]; exact ⟨rfl, rfl, rfl⟩
  by_cases h7 : kk = 0x33
  · subst h7; simp [exec_F] at h
    split_ifs at h
    · simp at h; rw [← h]; exact ⟨rfl, rfl, rfl⟩
  by_cases h8 : kk = 0x55
  · subst h8; simp [exec_F] at h
    cases hw : store_registers s.V s.I s.memory 0 (x + 1) with
    | none => simp [hw] at h
    | some m => simp [hw] at h; rw [← h]; exact ⟨rfl, rfl, rfl⟩
  by_cases h9 : kk = 0x65
  · subst h9; simp [exec_F] at h
    cases hw : load_registers s.memory s.I s.V 0 (x + 1) with
    | none => simp [hw] at h
    | some W => simp [hw] at h; rw [← h]; exact ⟨rfl, rfl, rfl⟩
  simp [exec_F, h1, h2, h3, h4, h5, h6, h7, h8, h9] at h

/-- C23: when the cycle on the fetched word `op` returns, `delay_timer` is
unchanged unless `op` is `Fx15` (then it is the old `V[x]`), `sound_timer` is
unchanged unless `op` is `Fx18` (then it is the old `V[x]`), and every keypad
latch is unchanged. -/
theorem C23_timers_and_keypad_frame (fuel rnd : Nat) (s t : Machine) (op : Nat)
    (hf : fetch s = some op)
    (hc : chip8_emulate_cycle fuel rnd s = Outcome.ok t) :
    t.delay_timer =
      (if op / 4096 % 16 = 0xF ∧ op % 256 = 0x15 then s.V (op / 256 % 16)
       else s.delay_timer) ∧
    t.sound_timer =
      (if op / 4096 % 16 = 0xF ∧ op % 256 = 0x18 then s.V (op / 256 % 16)
       else s.sound_timer) ∧
    (∀ i, i < 16 → t.keypad i = s.keypad i) := by
  rw [cycle_of_fetch fuel rnd s op hf, execute_fields] at hc
  have hlt : op / 4096 % 16 < 16 := Nat.mod_lt _ (by decide)
  have hn : op % 16 < 16 := Nat.mod_lt _ (by decide)
  simp only at hc
  generalize op / 4096 % 16 = f at hlt hc ⊢
  have key : ∀ u : Machine, u = t → u.delay_timer = s.delay_timer →
      u.sound_timer = s.sound_timer → u.keypad = s.keypad → f ≠ 0xF →
      t.delay_timer =
        (if f = 0xF ∧ op % 256 = 0x15 then s.V (op / 256 % 16) else s.delay_timer) ∧
      t.sound_timer =
        (if f = 0xF ∧ op % 256 = 0x18 then s.V (op / 256 % 16) else s.sound_timer) ∧
      (∀ i, i < 16 → t.keypad i = s.keypad i) := by
    intro u e h1 h2 h3 hF
    subst e
    simp [hF, h1, h2, h3]
  interval_cases f
  all_goals simp at hc
  · obtain ⟨a, b, c⟩ := exec_0_timers_keypad _ t _ hc
    exact key t rfl a b c (by decide)
  · exact key _ hc rfl rfl rfl (by decide)
  · split_ifs at hc with hb
    simp at hc
    exact key _ hc rfl rfl rfl (by decide)
  · split_ifs at hc <;> simp at hc <;> exact key _ hc rfl rfl rfl (by decide)
  · split_ifs at hc <;> simp at hc <;> exact key _ hc rfl rfl rfl (by decide)
  · split_ifs at hc <;> simp at hc <;> exact key _ hc rfl rfl rfl (by decide)
  · exact key _ hc rfl rfl rfl (by decide)
  · exact key _ hc rfl rfl rfl (by decide)
  · obtain ⟨a, b, c⟩ := exec_8_timers_keypad _ t _ _ _ hn hc
    exact key t rfl a b c (by decide)
  · split_ifs at hc <;> simp at hc <;> exact key _ hc rfl rfl rfl (by decide)
  · exact key _ hc rfl rfl rfl (by decide)
  · exact key _ hc rfl rfl rfl (by decide)
  · exact key _ hc rfl rfl rfl (by decide)
  · exact key _ hc rfl rfl rfl (by decide)
  · obtain ⟨a, b, c⟩ := exec_E_timers_keypad _ t _ _ hc
    exact key t rfl a b c (by decide)
  · obtain ⟨a, b, c⟩ := exec_F_timers_keypad fuel _ t _ _ hc
    refine ⟨?_, ?_, fun i _ => by rw [c]⟩
    · rw [a]; simp
    · rw [b]; simp

/-- C23 on `F115` with `V[1] = 9` and `keypad[3]` set: the cycle returns with
`delay_timer = 9`, `sound_timer` still 0 and `keypad[3]` still 1. -/
theorem C23_timers_and_keypad_frame_witness :
    fetch (state_at 0xF1 0x15 (regs2 1 9 2 0) 0 (key_down 3)) = some 0xF115 ∧
    ∃ t, chip8_emulate_cycle 0 0 (state_at 0xF1 0x15 (regs2 1 9 2 0) 0 (key_down 3))
        = Outcome.ok t ∧
      t.delay_timer = 9 ∧ t.sound_timer = 0 ∧ t.keypad 3 = 1 := by
  have hf : fetch (state_at 0xF1 0x15 (regs2 1 9 2 0) 0 (key_down 3)) = some 0xF115 := by
    decide
  have hc : chip8_emulate_cycle 0 0 (state_at 0xF1 0x15 (regs2 1 9 2 0) 0 (key_down 3))
      = Outcome.ok _ := rfl
  obtain ⟨hd, hs, hk⟩ :=
    C23_timers_and_keypad_frame 0 0 (state_at 0xF1 0x15 (regs2 1 9 2 0) 0 (key_down 3)) _
      0xF115 hf hc
  exact ⟨hf, _, hc, hd.trans (by decide), hs.trans (by decide), (hk 3 (by decide)).trans (by decide)⟩

end Chip8
